import Mathlib

/-!
# ELL value/emission layer: dispatcher checks, context lifecycle, addressing, instruction emitter

A shallow embedding of `libraries/value/src/EmitterContext.cpp` and of
`libraries/compiler/src/IREmitter.cpp`, with the properties of the specification
stated and proved over it.

Conventions of the embedding:

* an operation that can throw returns an `Except`; an operation that also drives the
  backend takes the emission state `σ` and returns the outcome paired with the state
  it leaves behind, so that "the backend was not called" and "the body was not run"
  read as "the state is the one the call started from", for every backend and body;
* the virtual `...Impl` members of `EmitterContext` are the fields of a record of
  functions, one record per backend;
* `std::vector::operator[]` is an `Option`: an index out of range has no value;
* the scalars of the addressing computation are Int32: an integer kept in the 32-bit
  two's-complement range after every operation, or nothing for a default-constructed
  scalar;
* the state of an `IREmitter` is the history of the calls made on its instruction
  builder together with its cache of string literals; a value the builder creates is
  named by the position of the call that created it.
-/

namespace ell
namespace value

/-! ## Data model -/

/-- Modelled from the spec: the declaration of `ValueType` is not among the sources.
The spec gives a closed enumeration of the base kinds Void, Byte, Short, Int32, Int64,
Double, Char8 and Boolean, each with a pointer variant; the pointer tags carry the
names the sources use (`PVoid`, ...). `invalid raw` stands for a value of the
underlying integer type that names no enumerator, which a cast can produce. -/
inductive ValueType where
  | Void | PVoid
  | Byte | PByte
  | Short | PShort
  | Int32 | PInt32
  | Int64 | PInt64
  | Double | PDouble
  | Char8 | PChar8
  | Boolean | PBoolean
  | invalid (raw : Nat)
  deriving DecidableEq, Repr

/-- Modelled from the spec: every base kind has exactly one pointer variant, and a
pointer variant has none (pointer depth is one level). -/
def ValueType.pointerOf : ValueType → Option ValueType
  | .Void => some .PVoid
  | .Byte => some .PByte
  | .Short => some .PShort
  | .Int32 => some .PInt32
  | .Int64 => some .PInt64
  | .Double => some .PDouble
  | .Char8 => some .PChar8
  | .Boolean => some .PBoolean
  | _ => none

/-- Modelled from the spec: `MemoryLayout` is declared outside the sources. The spec
names a per-dimension size, a per-dimension axis offset, a per-dimension cumulative
stride ("increment"), the logical dimension order, and a memory size; the memory size
is kept as a stored quantity since the spec gives no formula for it. -/
structure MemoryLayout where
  size : List Int
  offset : List Int
  increment : List Int
  order : List Int
  memorySize : Int
  deriving DecidableEq, Repr

namespace MemoryLayout

/-- Modelled from the spec: the number of dimensions of the layout. -/
def NumDimensions (layout : MemoryLayout) : Nat := layout.size.length

/-- Modelled from the spec: the number of addressed elements, the product of the
per-dimension sizes (so a zero-size dimension gives zero elements). -/
def NumElements (layout : MemoryLayout) : Int := layout.size.prod

/-- Modelled from the spec: the per-dimension axis offsets. -/
def GetOffset (layout : MemoryLayout) : List Int := layout.offset

/-- Modelled from the spec: the per-dimension cumulative strides. -/
def GetCumulativeIncrement (layout : MemoryLayout) : List Int := layout.increment

/-- Modelled from the spec: the order in which logical dimensions map to storage. -/
def GetLogicalDimensionOrder (layout : MemoryLayout) : List Int := layout.order

/-- Modelled from the spec: the memory size (capacity) the layout asks for. -/
def GetMemorySize (layout : MemoryLayout) : Int := layout.memorySize

/-- Modelled from the spec: `MemoryLayout({ size })`, the layout of a one-dimensional
array of `size` elements: stride 1, order `[0]`, no offset. -/
def ofSize (size : Int) : MemoryLayout := ⟨[size], [0], [1], [0], size⟩

end MemoryLayout

/-- Element access `v[i]` of a `std::vector` through an `int` index: defined only
for `0 ≤ i < v.size()`. -/
def vectorAt {α : Type} (v : List α) (i : Int) : Option α :=
  if i < 0 then none else v[i.toNat]?

/-- Modelled from the spec: the arithmetic of the addressing computation is declared
outside the sources (`Scalar`'s operators). Strides and offsets are `int`, and a scalar
made from an `int` is an Int32; the result of an operation is kept in the 32-bit
two's-complement range, wrapping around. -/
def wrapInt32 (x : Int) : Int := (x + 2147483648) % 4294967296 - 2147483648

/-- Modelled from the spec: what a `Scalar` of the addressing computation holds:
nothing, as the default-constructed `Scalar result;` does, or an Int32 value. -/
inductive Int32Scalar where
  | undefined
  | int32 (value : Int)
  deriving DecidableEq, Repr

/-- Modelled from the spec: `result += term` (`Scalar::operator+=`, declared outside
the sources). Into a scalar that holds nothing it stores the term; otherwise it adds
in Int32 arithmetic. -/
def Int32Scalar.addAssign (result : Int32Scalar) (term : Int) : Int32Scalar :=
  match result with
  | .undefined => .int32 term
  | .int32 value => .int32 (wrapInt32 (value + term))

namespace detail

/-- One pass of the loop body of `CalculateOffset`:
`result += increment[index] * (coordinates[order[index]] + offset[index])`.
The coordinates are given by the Int32 values they hold; the sum and the product are
Int32 operations. -/
def CalculateOffsetStep (offset increment order : List Int) (coordinates : List Int)
    (result : Int32Scalar) (index : Nat) : Option Int32Scalar :=
  match increment[index]?, order[index]?, offset[index]? with
  | some inc, some ord, some off =>
    match vectorAt coordinates ord with
    | some coordinate =>
      some (result.addAssign (wrapInt32 (inc * wrapInt32 (coordinate + off))))
    | none => none
  | _, _, _ => none

/-- `detail::CalculateOffset(layout, coordinates)`: the loop over
`index = 0 .. numDimensions - 1`, starting from the default-constructed
`Scalar result;`, which holds nothing; when the loop does not run, that scalar is
returned as it is. `none` when some element access is out of range. -/
def CalculateOffset (layout : MemoryLayout) (coordinates : List Int) :
    Option Int32Scalar :=
  let offset := layout.GetOffset
  let increment := layout.GetCumulativeIncrement
  let order := layout.GetLogicalDimensionOrder
  let numDimensions := layout.NumDimensions
  (List.range numDimensions).foldlM
    (CalculateOffsetStep offset increment order coordinates) Int32Scalar.undefined

end detail

/-- The sum the specification gives for the linear offset:
`Σ_{d < n} increment[d] * (coordinates[order[d]] + offset[d])`. -/
def specOffsetSum (n : Nat) (offset increment order coordinates : List Int) : Int :=
  ((List.range n).map fun d =>
    increment.getD d 0 * (coordinates.getD (order.getD d 0).toNat 0 + offset.getD d 0)).sum

/-! ## Values, failures and the backend interface -/

/-- The kinds of `utilities::InputException` that `EmitterContext.cpp` raises (the
declaration itself is outside the sources). -/
inductive InputExceptionErrors where
  | invalidArgument
  | invalidSize
  | typeMismatch
  deriving DecidableEq, Repr

/-- The kinds of `utilities::LogicException` that `EmitterContext.cpp` raises (the
declaration itself is outside the sources). -/
inductive LogicExceptionErrors where
  | illegalState
  deriving DecidableEq, Repr

/-- What a call can throw: an `InputException` or a `LogicException` with its kind. -/
inductive Exception where
  | InputException (kind : InputExceptionErrors)
  | LogicException (kind : LogicExceptionErrors)
  deriving DecidableEq, Repr

/-- The two scopes of a named allocation, as `EmitterContext.cpp` uses them. -/
inductive GlobalAllocationScope where
  | Global
  | Function
  deriving DecidableEq, Repr

/-- Modelled from the spec: `Value` is declared outside the sources. The spec gives a
typed handle carrying a `ValueType`, a `MemoryLayout`, and the flags "constrained"
(shape-resolved) and "defined" (bound to storage); `storage` names the storage the
handle views. -/
structure Value where
  type : ValueType
  layout : MemoryLayout
  constrained : Bool
  defined : Bool
  storage : Nat
  deriving DecidableEq, Repr

namespace Value

/-- Modelled from the spec: whether the handle is bound to storage. -/
def IsDefined (v : Value) : Bool := v.defined

/-- Modelled from the spec: whether the handle's shape is resolved. -/
def IsConstrained (v : Value) : Bool := v.constrained

/-- Modelled from the spec: the base `ValueType` the handle carries. -/
def GetBaseType (v : Value) : ValueType := v.type

/-- Modelled from the spec: the layout the handle carries. -/
def GetLayout (v : Value) : MemoryLayout := v.layout

/-- Modelled from the spec: layout reassignment, the handle keeps its storage. -/
def SetLayout (v : Value) (layout : MemoryLayout) : Value := { v with layout := layout }

end Value

/-- Modelled from the spec: a `Scalar` is a `Value` refined to rank 0. -/
structure Scalar where
  value : Value
  deriving DecidableEq, Repr

namespace Scalar

/-- Modelled from the spec: the value a scalar refines. -/
def GetValue (s : Scalar) : Value := s.value

/-- Modelled from the spec: the type of a scalar, the base type of its value. -/
def GetType (s : Scalar) : ValueType := s.value.GetBaseType

end Scalar

/-- Modelled from the spec: the operator tags are declared outside the sources; the
dispatcher hands them to the backend uninspected, so a tag is kept as its numeric
code. -/
structure ValueUnaryOperation where
  code : Nat
  deriving DecidableEq, Repr

/-- Modelled from the spec: tag of a binary operation, kept as its numeric code. -/
structure ValueBinaryOperation where
  code : Nat
  deriving DecidableEq, Repr

/-- Modelled from the spec: tag of a logical operation, kept as its numeric code. -/
structure ValueLogicalOperation where
  code : Nat
  deriving DecidableEq, Repr

/-- Modelled from the spec: a function declaration is a name, a return type and the
ordered argument types. -/
structure FunctionDeclaration where
  name : String
  returnType : ValueType
  argTypes : List ValueType
  deriving DecidableEq, Repr

/-- Outcome of an emitting call: what it returns or throws, and the emission state it
leaves behind. -/
abbrev Emit (σ α : Type) : Type := σ → Except Exception α × σ

/-- The backend object behind an open conditional (`EmitterContext::IfContextImpl`). -/
structure IfContextImpl (σ : Type) where
  ElseIf : Scalar → Emit σ Unit → Emit σ Unit
  Else : Emit σ Unit → Emit σ Unit

/-- `EmitterContext::IfContext`, owner of one `IfContextImpl`. -/
structure IfContext (σ : Type) where
  _impl : IfContextImpl σ

/-- The virtual members of `EmitterContext` that a backend implements. -/
structure EmitterContext (σ : Type) where
  AllocateImpl : ValueType → MemoryLayout → Emit σ Value
  GetGlobalValue : GlobalAllocationScope → String → σ → Option Value
  GlobalAllocateImpl : GlobalAllocationScope → String → ValueType → MemoryLayout → Emit σ Value
  ForImpl : MemoryLayout → (List Scalar → Emit σ Unit) → Emit σ Unit
  OffsetImpl : Value → Value → Emit σ Value
  UnaryOperationImpl : ValueUnaryOperation → Value → Emit σ Value
  BinaryOperationImpl : ValueBinaryOperation → Value → Value → Emit σ Value
  LogicalOperationImpl : ValueLogicalOperation → Value → Value → Emit σ Value
  CastImpl : Value → ValueType → Emit σ Value
  IfImpl : Scalar → Emit σ Unit → Emit σ (IfContext σ)
  CallImpl : FunctionDeclaration → List Value → Emit σ (Option Value)

/-! ## The dispatcher -/

namespace IfContext

/-- `EmitterContext::IfContext::ElseIf(test, fn)`. -/
def ElseIf {σ : Type} (self : IfContext σ) (test : Scalar) (fn : Emit σ Unit) :
    Emit σ (IfContext σ) := fun s =>
  if test.GetType ≠ ValueType.Boolean then
    (.error (.InputException .typeMismatch), s)
  else
    match self._impl.ElseIf test fn s with
    | (.ok (), s1) => (.ok self, s1)
    | (.error e, s1) => (.error e, s1)

/-- `EmitterContext::IfContext::Else(fn)`. -/
def Else {σ : Type} (self : IfContext σ) (fn : Emit σ Unit) : Emit σ Unit :=
  self._impl.Else fn

end IfContext

namespace EmitterContext

variable {σ : Type}

/-- `EmitterContext::Allocate(type, layout)`. -/
def Allocate (ctx : EmitterContext σ) (type : ValueType) (layout : MemoryLayout) :
    Emit σ Value :=
  ctx.AllocateImpl type layout

/-- `EmitterContext::Allocate(type, size)`:
`Allocate(type, MemoryLayout({ (int)size }))`. -/
def Allocate_size_t (ctx : EmitterContext σ) (type : ValueType) (size : Nat) :
    Emit σ Value :=
  ctx.Allocate type (MemoryLayout.ofSize (wrapInt32 size))

/-- `EmitterContext::StaticAllocate(name, type, layout)`. -/
def StaticAllocate (ctx : EmitterContext σ) (name : String) (type : ValueType)
    (layout : MemoryLayout) : Emit σ Value := fun s =>
  match ctx.GetGlobalValue GlobalAllocationScope.Function name s with
  | some globalValue =>
    let value := globalValue
    if layout.GetMemorySize > value.GetLayout.GetMemorySize then
      (.error (.InputException .invalidSize), s)
    else
      (.ok (value.SetLayout layout), s)
  | none => ctx.GlobalAllocateImpl GlobalAllocationScope.Function name type layout s

/-- `EmitterContext::GlobalAllocate(name, type, layout)`. -/
def GlobalAllocate (ctx : EmitterContext σ) (name : String) (type : ValueType)
    (layout : MemoryLayout) : Emit σ Value := fun s =>
  match ctx.GetGlobalValue GlobalAllocationScope.Global name s with
  | some globalValue =>
    let value := globalValue
    if layout.GetMemorySize > value.GetLayout.GetMemorySize then
      (.error (.InputException .invalidSize), s)
    else
      (.ok (value.SetLayout layout), s)
  | none => ctx.GlobalAllocateImpl GlobalAllocationScope.Global name type layout s

/-- `EmitterContext::For(layout, fn)`. -/
def For (ctx : EmitterContext σ) (layout : MemoryLayout) (fn : List Scalar → Emit σ Unit) :
    Emit σ Unit := fun s =>
  if layout.NumElements = 0 then
    (.ok (), s)
  else
    ctx.ForImpl layout fn s

/-- `EmitterContext::UnaryOperation(op, value)`. -/
def UnaryOperation (ctx : EmitterContext σ) (op : ValueUnaryOperation) (value : Value) :
    Emit σ Value :=
  ctx.UnaryOperationImpl op value

/-- `EmitterContext::BinaryOperation(op, destination, source)`. -/
def BinaryOperation (ctx : EmitterContext σ) (op : ValueBinaryOperation)
    (destination source : Value) : Emit σ Value :=
  ctx.BinaryOperationImpl op destination source

/-- `EmitterContext::LogicalOperation(op, source1, source2)`. -/
def LogicalOperation (ctx : EmitterContext σ) (op : ValueLogicalOperation)
    (source1 source2 : Value) : Emit σ Value := fun s =>
  if !source1.IsDefined || !source2.IsDefined then
    (.error (.InputException .invalidArgument), s)
  else if source1.GetBaseType ≠ source2.GetBaseType then
    (.error (.InputException .invalidArgument), s)
  else
    ctx.LogicalOperationImpl op source1 source2 s

/-- `EmitterContext::Cast(value, type)`. -/
def Cast (ctx : EmitterContext σ) (value : Value) (type : ValueType) : Emit σ Value :=
  fun s =>
  if !value.IsConstrained then
    (.error (.InputException .invalidArgument), s)
  else
    ctx.CastImpl value type s

/-- `EmitterContext::If(test, fn)`. -/
def If (ctx : EmitterContext σ) (test : Scalar) (fn : Emit σ Unit) :
    Emit σ (IfContext σ) := fun s =>
  if test.GetType ≠ ValueType.Boolean then
    (.error (.InputException .typeMismatch), s)
  else
    ctx.IfImpl test fn s

/-- `EmitterContext::Call(func, args)`. -/
def Call (ctx : EmitterContext σ) (func : FunctionDeclaration) (args : List Value) :
    Emit σ (Option Value) :=
  ctx.CallImpl func args

end EmitterContext

/-! ## The active context -/

/-- The file-scope pointer `s_context`; `none` is `nullptr`. `C` is what the pointer
refers to (a backend, or the name of one). -/
structure Globals (C : Type) where
  s_context : Option C

/-- The state at program start: `s_context = nullptr`. -/
def Globals.initial {C : Type} : Globals C := ⟨none⟩

/-- `GetContext()`. -/
def GetContext {C : Type} (g : Globals C) : Except Exception C :=
  match g.s_context with
  | none => .error (.LogicException .illegalState)
  | some context => .ok context

/-- `SetContext(context)`. -/
def SetContext {C : Type} (context : C) (_g : Globals C) : Globals C := ⟨some context⟩

/-- `ClearContext()`. -/
def ClearContext {C : Type} (_g : Globals C) : Globals C := ⟨none⟩

namespace ContextGuard

/-- `ContextGuard::ContextGuard(context)`. -/
def ctor {C : Type} (context : C) (g : Globals C) : Globals C := SetContext context g

/-- `ContextGuard::~ContextGuard()`. -/
def dtor {C : Type} (g : Globals C) : Globals C := ClearContext g

/-- A block `{ ContextGuard guard(context); body }`: the constructor runs on entry,
the destructor when the block is left, whether `body` returned or threw. -/
def scope {C α : Type} (context : C) (body : Globals C → Except Exception α × Globals C)
    (g : Globals C) : Except Exception α × Globals C :=
  let entered := ctor context g
  match body entered with
  | (.ok a, g1) => (.ok a, dtor g1)
  | (.error e, g1) => (.error e, dtor g1)

end ContextGuard

/-- The free function `Allocate(type, layout)`: `GetContext().Allocate(type, layout)`. -/
def Allocate {σ : Type} (type : ValueType) (layout : MemoryLayout)
    (g : Globals (EmitterContext σ)) : Emit σ Value := fun s =>
  match GetContext g with
  | .error e => (.error e, s)
  | .ok context => context.Allocate type layout s

/-- The free function `Allocate(type, size)`: `GetContext().Allocate(type, size)`. -/
def Allocate_size_t {σ : Type} (type : ValueType) (size : Nat)
    (g : Globals (EmitterContext σ)) : Emit σ Value := fun s =>
  match GetContext g with
  | .error e => (.error e, s)
  | .ok context => context.Allocate_size_t type size s

/-- The free function `GlobalAllocate(name, type, layout)`. -/
def GlobalAllocate {σ : Type} (name : String) (type : ValueType) (layout : MemoryLayout)
    (g : Globals (EmitterContext σ)) : Emit σ Value := fun s =>
  match GetContext g with
  | .error e => (.error e, s)
  | .ok context => context.GlobalAllocate name type layout s

/-- The free function `If(test, fn)`: `GetContext().If(test, fn)`. -/
def If {σ : Type} (test : Scalar) (fn : Emit σ Unit)
    (g : Globals (EmitterContext σ)) : Emit σ (IfContext σ) := fun s =>
  match GetContext g with
  | .error e => (.error e, s)
  | .ok context => context.If test fn s

/-! ## Intrinsics -/

/-- Modelled from the spec: a `Vector` is a `Value` refined to rank 1. -/
structure Vector where
  value : Value
  deriving DecidableEq, Repr

/-- Modelled from the spec: the value a vector refines. -/
def Vector.GetValue (v : Vector) : Value := v.value

/-- Modelled from the spec: the global declaration of the intrinsic `Abs`, defined
outside the sources; the spec fixes its name, and no signature is given for it. -/
def AbsFunctionDeclaration : FunctionDeclaration := ⟨"Abs", .Void, []⟩

/-- Modelled from the spec: the global declaration of the intrinsic `Cos`, defined
outside the sources; the spec fixes its name, and no signature is given for it. -/
def CosFunctionDeclaration : FunctionDeclaration := ⟨"Cos", .Void, []⟩

/-- Modelled from the spec: the global declaration of the intrinsic `Exp`, defined
outside the sources; the spec fixes its name, and no signature is given for it. -/
def ExpFunctionDeclaration : FunctionDeclaration := ⟨"Exp", .Void, []⟩

/-- Modelled from the spec: the global declaration of the intrinsic `Log`, defined
outside the sources; the spec fixes its name, and no signature is given for it. -/
def LogFunctionDeclaration : FunctionDeclaration := ⟨"Log", .Void, []⟩

/-- Modelled from the spec: the global declaration of the intrinsic `MaxNum`, defined
outside the sources; the spec fixes its name, and no signature is given for it. -/
def MaxNumFunctionDeclaration : FunctionDeclaration := ⟨"MaxNum", .Void, []⟩

/-- Modelled from the spec: the global declaration of the intrinsic `MinNum`, defined
outside the sources; the spec fixes its name, and no signature is given for it. -/
def MinNumFunctionDeclaration : FunctionDeclaration := ⟨"MinNum", .Void, []⟩

/-- Modelled from the spec: the global declaration of the intrinsic `Pow`, defined
outside the sources; the spec fixes its name, and no signature is given for it. -/
def PowFunctionDeclaration : FunctionDeclaration := ⟨"Pow", .Void, []⟩

/-- Modelled from the spec: the global declaration of the intrinsic `Sin`, defined
outside the sources; the spec fixes its name, and no signature is given for it. -/
def SinFunctionDeclaration : FunctionDeclaration := ⟨"Sin", .Void, []⟩

/-- Modelled from the spec: the global declaration of the intrinsic `Sqrt`, defined
outside the sources; the spec fixes its name, and no signature is given for it. -/
def SqrtFunctionDeclaration : FunctionDeclaration := ⟨"Sqrt", .Void, []⟩

/-- Modelled from the spec: the global declaration of the intrinsic `Tanh`, defined
outside the sources; the spec fixes its name, and no signature is given for it. -/
def TanhFunctionDeclaration : FunctionDeclaration := ⟨"Tanh", .Void, []⟩

/-- `EmitterContext::GetIntrinsics()`. -/
def EmitterContext.GetIntrinsics {σ : Type} (_ctx : EmitterContext σ) :
    List FunctionDeclaration :=
  [AbsFunctionDeclaration,
   CosFunctionDeclaration,
   ExpFunctionDeclaration,
   LogFunctionDeclaration,
   MaxNumFunctionDeclaration,
   MinNumFunctionDeclaration,
   PowFunctionDeclaration,
   SinFunctionDeclaration,
   SqrtFunctionDeclaration,
   TanhFunctionDeclaration]

/-- The `return *call;` of an intrinsic helper: the value held by the optional that
`Call` returned, handed back as the helper's return type. Dereferencing an empty
optional has no defined value: `none`. -/
def derefAs {σ α : Type} (wrap : Value → α)
    (outcome : Except Exception (Option Value) × σ) : Except Exception (Option α) × σ :=
  match outcome with
  | (.ok result, s) => (.ok (result.map wrap), s)
  | (.error e, s) => (.error e, s)

/-- The free function `Scalar Abs(Scalar s)`. -/
def Abs_Scalar {σ : Type} (s : Scalar)
    (g : Globals (EmitterContext σ)) : Emit σ (Option Scalar) := fun st =>
  match GetContext g with
  | .error e => (.error e, st)
  | .ok context =>
    derefAs Scalar.mk
      (context.Call AbsFunctionDeclaration [s.GetValue] st)

/-- The free function `Scalar Cos(Scalar s)`. -/
def Cos_Scalar {σ : Type} (s : Scalar)
    (g : Globals (EmitterContext σ)) : Emit σ (Option Scalar) := fun st =>
  match GetContext g with
  | .error e => (.error e, st)
  | .ok context =>
    derefAs Scalar.mk
      (context.Call CosFunctionDeclaration [s.GetValue] st)

/-- The free function `Scalar Exp(Scalar s)`. -/
def Exp_Scalar {σ : Type} (s : Scalar)
    (g : Globals (EmitterContext σ)) : Emit σ (Option Scalar) := fun st =>
  match GetContext g with
  | .error e => (.error e, st)
  | .ok context =>
    derefAs Scalar.mk
      (context.Call ExpFunctionDeclaration [s.GetValue] st)

/-- The free function `Scalar Log(Scalar s)`. -/
def Log_Scalar {σ : Type} (s : Scalar)
    (g : Globals (EmitterContext σ)) : Emit σ (Option Scalar) := fun st =>
  match GetContext g with
  | .error e => (.error e, st)
  | .ok context =>
    derefAs Scalar.mk
      (context.Call LogFunctionDeclaration [s.GetValue] st)

/-- The free function `Scalar Max(Scalar s1, Scalar s2)`. -/
def Max_Scalar_Scalar {σ : Type} (s1 : Scalar) (s2 : Scalar)
    (g : Globals (EmitterContext σ)) : Emit σ (Option Scalar) := fun st =>
  match GetContext g with
  | .error e => (.error e, st)
  | .ok context =>
    derefAs Scalar.mk
      (context.Call MaxNumFunctionDeclaration [s1.GetValue, s2.GetValue] st)

/-- The free function `Scalar Min(Scalar s1, Scalar s2)`. -/
def Min_Scalar_Scalar {σ : Type} (s1 : Scalar) (s2 : Scalar)
    (g : Globals (EmitterContext σ)) : Emit σ (Option Scalar) := fun st =>
  match GetContext g with
  | .error e => (.error e, st)
  | .ok context =>
    derefAs Scalar.mk
      (context.Call MinNumFunctionDeclaration [s1.GetValue, s2.GetValue] st)

/-- The free function `Scalar Pow(Scalar base, Scalar exp)`. -/
def Pow_Scalar_Scalar {σ : Type} (base : Scalar) (exp : Scalar)
    (g : Globals (EmitterContext σ)) : Emit σ (Option Scalar) := fun st =>
  match GetContext g with
  | .error e => (.error e, st)
  | .ok context =>
    derefAs Scalar.mk
      (context.Call PowFunctionDeclaration [base.GetValue, exp.GetValue] st)

/-- The free function `Scalar Sin(Scalar s)`. -/
def Sin_Scalar {σ : Type} (s : Scalar)
    (g : Globals (EmitterContext σ)) : Emit σ (Option Scalar) := fun st =>
  match GetContext g with
  | .error e => (.error e, st)
  | .ok context =>
    derefAs Scalar.mk
      (context.Call SinFunctionDeclaration [s.GetValue] st)

/-- The free function `Scalar Sqrt(Scalar s)`. -/
def Sqrt_Scalar {σ : Type} (s : Scalar)
    (g : Globals (EmitterContext σ)) : Emit σ (Option Scalar) := fun st =>
  match GetContext g with
  | .error e => (.error e, st)
  | .ok context =>
    derefAs Scalar.mk
      (context.Call SqrtFunctionDeclaration [s.GetValue] st)

/-- The free function `Scalar Tanh(Scalar s)`. -/
def Tanh_Scalar {σ : Type} (s : Scalar)
    (g : Globals (EmitterContext σ)) : Emit σ (Option Scalar) := fun st =>
  match GetContext g with
  | .error e => (.error e, st)
  | .ok context =>
    derefAs Scalar.mk
      (context.Call TanhFunctionDeclaration [s.GetValue] st)

/-- The free function `Vector Abs(Vector v)`. -/
def Abs_Vector {σ : Type} (v : Vector)
    (g : Globals (EmitterContext σ)) : Emit σ (Option Vector) := fun st =>
  match GetContext g with
  | .error e => (.error e, st)
  | .ok context =>
    derefAs Vector.mk
      (context.Call AbsFunctionDeclaration [v.GetValue] st)

/-- The free function `Vector Cos(Vector v)`. -/
def Cos_Vector {σ : Type} (v : Vector)
    (g : Globals (EmitterContext σ)) : Emit σ (Option Vector) := fun st =>
  match GetContext g with
  | .error e => (.error e, st)
  | .ok context =>
    derefAs Vector.mk
      (context.Call CosFunctionDeclaration [v.GetValue] st)

/-- The free function `Vector Exp(Vector v)`. -/
def Exp_Vector {σ : Type} (v : Vector)
    (g : Globals (EmitterContext σ)) : Emit σ (Option Vector) := fun st =>
  match GetContext g with
  | .error e => (.error e, st)
  | .ok context =>
    derefAs Vector.mk
      (context.Call ExpFunctionDeclaration [v.GetValue] st)

/-- The free function `Vector Log(Vector v)`. -/
def Log_Vector {σ : Type} (v : Vector)
    (g : Globals (EmitterContext σ)) : Emit σ (Option Vector) := fun st =>
  match GetContext g with
  | .error e => (.error e, st)
  | .ok context =>
    derefAs Vector.mk
      (context.Call LogFunctionDeclaration [v.GetValue] st)

/-- The free function `Scalar Max(Vector v)`. -/
def Max_Vector {σ : Type} (v : Vector)
    (g : Globals (EmitterContext σ)) : Emit σ (Option Scalar) := fun st =>
  match GetContext g with
  | .error e => (.error e, st)
  | .ok context =>
    derefAs Scalar.mk
      (context.Call MaxNumFunctionDeclaration [v.GetValue] st)

/-- The free function `Scalar Min(Vector v)`. -/
def Min_Vector {σ : Type} (v : Vector)
    (g : Globals (EmitterContext σ)) : Emit σ (Option Scalar) := fun st =>
  match GetContext g with
  | .error e => (.error e, st)
  | .ok context =>
    derefAs Scalar.mk
      (context.Call MinNumFunctionDeclaration [v.GetValue] st)

/-- The free function `Vector Pow(Vector bases, Scalar exp)`. -/
def Pow_Vector_Scalar {σ : Type} (bases : Vector) (exp : Scalar)
    (g : Globals (EmitterContext σ)) : Emit σ (Option Vector) := fun st =>
  match GetContext g with
  | .error e => (.error e, st)
  | .ok context =>
    derefAs Vector.mk
      (context.Call PowFunctionDeclaration [bases.GetValue, exp.GetValue] st)

/-- The free function `Vector Sin(Vector v)`. -/
def Sin_Vector {σ : Type} (v : Vector)
    (g : Globals (EmitterContext σ)) : Emit σ (Option Vector) := fun st =>
  match GetContext g with
  | .error e => (.error e, st)
  | .ok context =>
    derefAs Vector.mk
      (context.Call SinFunctionDeclaration [v.GetValue] st)

/-- The free function `Vector Sqrt(Vector v)`. -/
def Sqrt_Vector {σ : Type} (v : Vector)
    (g : Globals (EmitterContext σ)) : Emit σ (Option Vector) := fun st =>
  match GetContext g with
  | .error e => (.error e, st)
  | .ok context =>
    derefAs Vector.mk
      (context.Call SqrtFunctionDeclaration [v.GetValue] st)

/-- The free function `Vector Tanh(Vector v)`. -/
def Tanh_Vector {σ : Type} (v : Vector)
    (g : Globals (EmitterContext σ)) : Emit σ (Option Vector) := fun st =>
  match GetContext g with
  | .error e => (.error e, st)
  | .ok context =>
    derefAs Vector.mk
      (context.Call TanhFunctionDeclaration [v.GetValue] st)

/-! ## A recording backend

A backend whose state is the list of backend members that ran, together with its table
of named allocations. It is the concrete backend at which the general statements are
instantiated. -/

/-- The backend members whose runs the recording backend logs; `body` is a run of a
closure handed to the dispatcher. -/
inductive ImplMember where
  | AllocateImpl | GlobalAllocateImpl | ForImpl | OffsetImpl | UnaryOperationImpl
  | BinaryOperationImpl | LogicalOperationImpl | CastImpl | IfImpl | CallImpl
  | ElseIf | Else | body
  deriving DecidableEq, Repr

/-- State of the recording backend: the members that ran, in order, and the table of
named allocations. -/
structure TraceState where
  calls : List ImplMember
  globals : List ((GlobalAllocationScope × String) × Value)
  deriving DecidableEq, Repr

namespace TraceState

/-- Nothing ran, nothing allocated. -/
def empty : TraceState := ⟨[], []⟩

/-- Record that member `m` ran. -/
def log (s : TraceState) (m : ImplMember) : TraceState := ⟨s.calls ++ [m], s.globals⟩

end TraceState

/-- A closure that records that it ran. -/
def traceBody : Emit TraceState Unit := fun s => (.ok (), s.log .body)

/-- The `IfContextImpl` of the recording backend. -/
def traceIfContextImpl : IfContextImpl TraceState where
  ElseIf := fun _ _ s => (.ok (), s.log .ElseIf)
  Else := fun _ s => (.ok (), s.log .Else)

/-- The recording backend: each member logs its run and returns; named allocations
are entered in the table and found again by scope and name. -/
def traceContext : EmitterContext TraceState where
  AllocateImpl := fun type layout s =>
    (.ok ⟨type, layout, true, true, s.globals.length⟩, s.log .AllocateImpl)
  GetGlobalValue := fun scope name s =>
    (s.globals.find? fun entry => entry.1 = (scope, name)).map Prod.snd
  GlobalAllocateImpl := fun scope name type layout s =>
    let fresh : Value := ⟨type, layout, true, true, s.globals.length⟩
    (.ok fresh, ⟨s.calls ++ [.GlobalAllocateImpl], ((scope, name), fresh) :: s.globals⟩)
  ForImpl := fun _ _ s => (.ok (), s.log .ForImpl)
  OffsetImpl := fun begin _ s => (.ok begin, s.log .OffsetImpl)
  UnaryOperationImpl := fun _ value s => (.ok value, s.log .UnaryOperationImpl)
  BinaryOperationImpl := fun _ destination _ s =>
    (.ok destination, s.log .BinaryOperationImpl)
  LogicalOperationImpl := fun _ source1 _ s =>
    (.ok { source1 with type := ValueType.Boolean }, s.log .LogicalOperationImpl)
  CastImpl := fun value type s => (.ok { value with type := type }, s.log .CastImpl)
  IfImpl := fun _ _ s => (.ok ⟨traceIfContextImpl⟩, s.log .IfImpl)
  CallImpl := fun _ args s => (.ok args.head?, s.log .CallImpl)

/-- A one-dimensional layout of `n` elements, stride 1, no offset. -/
def lineLayout (n : Int) : MemoryLayout := ⟨[n], [0], [1], [0], n⟩

/-- The recording backend after `GlobalAllocate("buf", Int32, layout4)` and
`StaticAllocate("buf", Int32, layout4)` on the empty state. -/
def bufState : TraceState :=
  (traceContext.StaticAllocate "buf" .Int32 (lineLayout 4)
    (traceContext.GlobalAllocate "buf" .Int32 (lineLayout 4) TraceState.empty).2).2

/-- A value that is not bound to storage and has no resolved shape. -/
def undefinedValue : Value := ⟨.Void, lineLayout 0, false, false, 0⟩

/-- A defined, constrained value of the given type over four elements. -/
def definedValue (type : ValueType) : Value := ⟨type, lineLayout 4, true, true, 0⟩

/-- A backend over any state whose members return at once and leave the state as it
is: the `IfContextImpl` it hands out. -/
def idleIfContextImpl (σ : Type) : IfContextImpl σ where
  ElseIf := fun _ _ s => (.ok (), s)
  Else := fun _ s => (.ok (), s)

/-- A backend over any state whose members return at once and leave the state as it
is. -/
def idleContext (σ : Type) : EmitterContext σ where
  AllocateImpl := fun type layout s => (.ok ⟨type, layout, true, true, 0⟩, s)
  GetGlobalValue := fun _ _ _ => none
  GlobalAllocateImpl := fun _ _ type layout s => (.ok ⟨type, layout, true, true, 0⟩, s)
  ForImpl := fun _ _ s => (.ok (), s)
  OffsetImpl := fun begin _ s => (.ok begin, s)
  UnaryOperationImpl := fun _ value s => (.ok value, s)
  BinaryOperationImpl := fun _ destination _ s => (.ok destination, s)
  LogicalOperationImpl := fun _ source1 _ s => (.ok source1, s)
  CastImpl := fun value _ s => (.ok value, s)
  IfImpl := fun _ _ s => (.ok ⟨idleIfContextImpl σ⟩, s)
  CallImpl := fun _ _ s => (.ok none, s)

end value
end ell

namespace emll
namespace compiler

open ell.value (ValueType)

/-! ## The low-level instruction emitter -/

/-- Error kinds of `EmitterException` raised in `IREmitter.cpp`. -/
inductive EmitterError where
  | InvalidValueType
  | InvalidOperatorType
  | InvalidComparisonType
  | InvalidFunction
  deriving DecidableEq, Repr

/-- The backend types the builder hands out (`getVoidTy`, `getInt8Ty`, `getInt16Ty`,
`getInt32Ty`, `getInt64Ty`, `getDoubleTy`) and the pointer types over them. -/
inductive LLVMType where
  | voidTy | int8Ty | int16Ty | int32Ty | int64Ty | doubleTy
  | pointerTo (pointee : LLVMType)
  deriving DecidableEq, Repr

/-- `llvm::Type::getPointerTo()`. -/
def LLVMType.getPointerTo (t : LLVMType) : LLVMType := .pointerTo t

namespace IREmitter

/-- `IREmitter::GetValueType(type)`. -/
def GetValueType (type : ValueType) : Except EmitterError LLVMType :=
  match type with
  | .Void => .ok .voidTy
  | .Byte => .ok .int8Ty
  | .Short => .ok .int16Ty
  | .Int32 => .ok .int32Ty
  | .Int64 => .ok .int64Ty
  | .Double => .ok .doubleTy
  | .Char8 => .ok .int8Ty
  | _ => .error .InvalidValueType

end IREmitter

/-- `IREmitter::Type(type)`. -/
def IREmitter.Type (type : ValueType) : Except EmitterError LLVMType :=
  open IREmitter in
  match type with
  | .Void => GetValueType type
  | .PVoid => (GetValueType .Void).map LLVMType.getPointerTo
  | .Byte => GetValueType type
  | .PByte => (GetValueType .Byte).map LLVMType.getPointerTo
  | .Short => GetValueType type
  | .PShort => (GetValueType .Short).map LLVMType.getPointerTo
  | .Int32 => GetValueType type
  | .PInt32 => (GetValueType .Int32).map LLVMType.getPointerTo
  | .Int64 => GetValueType type
  | .PInt64 => (GetValueType .Int64).map LLVMType.getPointerTo
  | .Double => GetValueType type
  | .PDouble => (GetValueType .Double).map LLVMType.getPointerTo
  | .Char8 => GetValueType type
  | .PChar8 => (GetValueType .Char8).map LLVMType.getPointerTo
  | _ => .error .InvalidValueType

/-! ### The instruction builder and the emitter's state -/

/-- Modelled from the spec: `OperatorType` is declared outside the sources; the tags
are the ones `IREmitter::BinaryOp` names, the signed-integer and the floating add,
subtract, multiply and divide. `invalid raw` stands for a value of the underlying
integer type that names no enumerator. -/
inductive OperatorType where
  | Add | Subtract | Multiply | DivideS
  | AddF | SubtractF | MultiplyF | DivideF
  | invalid (raw : Nat)
  deriving DecidableEq, Repr

/-- Modelled from the spec: `ComparisonType` is declared outside the sources; the tags
are the ones `IREmitter::Cmp` names. `invalid raw` stands for a value of the underlying
integer type that names no enumerator. -/
inductive ComparisonType where
  | Eq | Lt | Lte | Gt | Gte | Neq
  | invalid (raw : Nat)
  deriving DecidableEq, Repr

/-- A non-null `llvm::Value*`: the name of a value of the backend. -/
abbrev LLVMValue : Type := Nat

/-- The calls `IREmitter.cpp` makes on its `llvm::IRBuilder` that the statements below
are about, with their arguments. -/
inductive BuilderCall where
  | CreateAdd (pLVal pRVal : LLVMValue) (varName : String)
  | CreateSub (pLVal pRVal : LLVMValue) (varName : String)
  | CreateMul (pLVal pRVal : LLVMValue) (varName : String)
  | CreateSDiv (pLVal pRVal : LLVMValue) (varName : String)
  | CreateFAdd (pLVal pRVal : LLVMValue) (varName : String)
  | CreateFSub (pLVal pRVal : LLVMValue) (varName : String)
  | CreateFMul (pLVal pRVal : LLVMValue) (varName : String)
  | CreateFDiv (pLVal pRVal : LLVMValue) (varName : String)
  | CreateICmpEQ (pLVal pRVal : LLVMValue)
  | CreateICmpNE (pLVal pRVal : LLVMValue)
  | CreateICmpSLT (pLVal pRVal : LLVMValue)
  | CreateICmpSLE (pLVal pRVal : LLVMValue)
  | CreateICmpSGT (pLVal pRVal : LLVMValue)
  | CreateICmpSGE (pLVal pRVal : LLVMValue)
  | CreateGlobalStringPtr (value : String) (name : String)
  deriving DecidableEq, Repr

/-- The state of an `IREmitter`: what its builder `_pBuilder` was asked to create, in
order, and the cache `_stringLiterals` (its container is declared outside the sources;
modelled from the spec as a content-keyed table, the first entry under a key being the
one `Get` finds). -/
structure IREmitter where
  calls : List BuilderCall
  _stringLiterals : List (String × LLVMValue)
  deriving DecidableEq, Repr

/-- Outcome of a member of `IREmitter`: what it returns or throws, and the state of the
emitter afterwards. -/
abbrev IREmit (α : Type) : Type := IREmitter → Except EmitterError α × IREmitter

namespace IREmitter

/-- `IREmitter::IREmitter()`: a builder that was asked nothing yet, an empty cache. -/
def ctor : IREmitter := ⟨[], []⟩

/-- One call on `_pBuilder`: the builder creates the value and answers with its name,
which is new (the position of the call in the emitter's history). -/
def create (self : IREmitter) (call : BuilderCall) : LLVMValue × IREmitter :=
  (self.calls.length, { self with calls := self.calls ++ [call] })

/-- `IREmitter::BinaryOp(type, pLVal, pRVal, varName)`. -/
def BinaryOp (type : OperatorType) (pLVal pRVal : LLVMValue) (varName : String) :
    IREmit LLVMValue := fun self =>
  match type with
  | .Add => let r := self.create (.CreateAdd pLVal pRVal varName); (.ok r.1, r.2)
  | .Subtract => let r := self.create (.CreateSub pLVal pRVal varName); (.ok r.1, r.2)
  | .Multiply => let r := self.create (.CreateMul pLVal pRVal varName); (.ok r.1, r.2)
  | .DivideS => let r := self.create (.CreateSDiv pLVal pRVal varName); (.ok r.1, r.2)
  | .AddF => let r := self.create (.CreateFAdd pLVal pRVal varName); (.ok r.1, r.2)
  | .SubtractF => let r := self.create (.CreateFSub pLVal pRVal varName); (.ok r.1, r.2)
  | .MultiplyF => let r := self.create (.CreateFMul pLVal pRVal varName); (.ok r.1, r.2)
  | .DivideF => let r := self.create (.CreateFDiv pLVal pRVal varName); (.ok r.1, r.2)
  | _ => (.error .InvalidOperatorType, self)

/-- `IREmitter::Cmp(type, pLVal, pRVal)`. -/
def Cmp (type : ComparisonType) (pLVal pRVal : LLVMValue) : IREmit LLVMValue := fun self =>
  match type with
  | .Eq => let r := self.create (.CreateICmpEQ pLVal pRVal); (.ok r.1, r.2)
  | .Lt => let r := self.create (.CreateICmpSLT pLVal pRVal); (.ok r.1, r.2)
  | .Lte => let r := self.create (.CreateICmpSLE pLVal pRVal); (.ok r.1, r.2)
  | .Gt => let r := self.create (.CreateICmpSGT pLVal pRVal); (.ok r.1, r.2)
  | .Gte => let r := self.create (.CreateICmpSGE pLVal pRVal); (.ok r.1, r.2)
  | .Neq => let r := self.create (.CreateICmpNE pLVal pRVal); (.ok r.1, r.2)
  | _ => (.error .InvalidComparisonType, self)

end IREmitter

end compiler
end emll

namespace ell
namespace value

/-! ## Addressing -/

theorem vectorAt_of_lt {α : Type} (v : List α) (i : Int) (d : α)
    (h0 : 0 ≤ i) (h1 : i.toNat < v.length) :
    vectorAt v i = some (v.getD i.toNat d) := by
  unfold vectorAt
  have : ¬ i < 0 := not_lt.mpr h0
  simp [this, List.getD, List.getElem?_eq_getElem h1]

theorem wrapInt32_of_inRange (x : Int) (h0 : -2147483648 ≤ x) (h1 : x < 2147483648) :
    wrapInt32 x = x := by
  unfold wrapInt32
  omega

theorem wrapInt32_add (a b : Int) : wrapInt32 (wrapInt32 a + wrapInt32 b) = wrapInt32 (a + b) := by
  unfold wrapInt32
  omega

theorem wrapInt32_wrapInt32 (a : Int) : wrapInt32 (wrapInt32 a) = wrapInt32 a := by
  unfold wrapInt32
  omega

theorem wrapInt32_mul (k y : Int) : wrapInt32 (k * wrapInt32 y) = wrapInt32 (k * y) := by
  have hy : wrapInt32 y = y - 4294967296 * ((y + 2147483648) / 4294967296) := by
    unfold wrapInt32
    omega
  have hk : k * wrapInt32 y + 2147483648
      = (k * y + 2147483648) + 4294967296 * (-(k * ((y + 2147483648) / 4294967296))) := by
    rw [hy]
    ring
  unfold wrapInt32 at *
  rw [hk, Int.add_mul_emod_self_left]

theorem CalculateOffsetStep_of_inBounds (offset increment order coordinates : List Int)
    (result : Int32Scalar) (index : Nat)
    (hinc : index < increment.length) (hoff : index < offset.length)
    (hord : index < order.length)
    (hc : 0 ≤ order.getD index 0 ∧ (order.getD index 0).toNat < coordinates.length) :
    detail.CalculateOffsetStep offset increment order coordinates result index
      = some (result.addAssign (wrapInt32 (increment.getD index 0 *
          wrapInt32 (coordinates.getD (order.getD index 0).toNat 0
            + offset.getD index 0)))) := by
  unfold detail.CalculateOffsetStep
  have h1 : increment[index]? = some (increment.getD index 0) := by
    simp [List.getD, List.getElem?_eq_getElem hinc]
  have h2 : order[index]? = some (order.getD index 0) := by
    simp [List.getD, List.getElem?_eq_getElem hord]
  have h3 : offset[index]? = some (offset.getD index 0) := by
    simp [List.getD, List.getElem?_eq_getElem hoff]
  rw [h1, h2, h3]
  simp only []
  rw [vectorAt_of_lt coordinates _ 0 hc.1 hc.2]

theorem foldlM_CalculateOffsetStep (offset increment order coordinates : List Int)
    (ds : List Nat) (acc : Int32Scalar)
    (hds : ∀ d ∈ ds, d < increment.length ∧ d < offset.length ∧ d < order.length ∧
      0 ≤ order.getD d 0 ∧ (order.getD d 0).toNat < coordinates.length) :
    ds.foldlM (detail.CalculateOffsetStep offset increment order coordinates) acc
      = some (ds.foldl (fun result d =>
          result.addAssign (wrapInt32 (increment.getD d 0 *
            wrapInt32 (coordinates.getD (order.getD d 0).toNat 0 + offset.getD d 0))))
          acc) := by
  induction ds generalizing acc with
  | nil => simp
  | cons d ds ih =>
    obtain ⟨h1, h2, h3, h4⟩ := hds d (List.mem_cons_self d ds)
    rw [List.foldlM_cons, CalculateOffsetStep_of_inBounds _ _ _ _ _ _ h1 h2 h3 h4]
    simp only [Option.bind_eq_bind, Option.some_bind]
    rw [ih _ (fun e he => hds e (List.mem_cons_of_mem d he))]
    simp

theorem addAssign_int32 (value term : Int) :
    (Int32Scalar.int32 value).addAssign term = Int32Scalar.int32 (wrapInt32 (value + term)) :=
  rfl

theorem addAssign_undefined (term : Int) :
    Int32Scalar.undefined.addAssign term = Int32Scalar.int32 term :=
  rfl

theorem foldl_addAssign_int32 (term : Nat → Int) (ds : List Nat) (total : Int) :
    ds.foldl (fun result d => Int32Scalar.addAssign result (wrapInt32 (term d)))
        (Int32Scalar.int32 (wrapInt32 total))
      = Int32Scalar.int32 (wrapInt32 (total + (ds.map term).sum)) := by
  induction ds generalizing total with
  | nil => simp
  | cons d ds ih =>
    simp only [List.foldl_cons, List.map_cons, List.sum_cons]
    rw [addAssign_int32, wrapInt32_add, ih, add_assoc]

theorem foldl_addAssign_undefined (term : Nat → Int) (ds : List Nat) (hne : ds ≠ []) :
    ds.foldl (fun result d => Int32Scalar.addAssign result (wrapInt32 (term d)))
        Int32Scalar.undefined
      = Int32Scalar.int32 (wrapInt32 ((ds.map term).sum)) := by
  cases ds with
  | nil => exact absurd rfl hne
  | cons d ds =>
    simp only [List.foldl_cons, List.map_cons, List.sum_cons]
    rw [addAssign_undefined, foldl_addAssign_int32]

/-- C1, as the code behaves at concrete inputs: on a layout with no dimension the loop
does not run and the default-constructed scalar is returned, not the empty sum 0; on a
65536 x 65536 layout the offset of the last element, 4294967295, does not fit the Int32
arithmetic and comes out as -1; with an order entry that names no dimension the access
`coordinates[order[0]]` is out of range and there is no result. -/
theorem CalculateOffset_not_the_sum :
    (detail.CalculateOffset ⟨[], [], [], [], 1⟩ [] = some Int32Scalar.undefined ∧
      specOffsetSum 0 [] [] [] [] = 0) ∧
    (detail.CalculateOffset ⟨[65536, 65536], [0, 0], [65536, 1], [0, 1], 4294967296⟩
        [65535, 65535] = some (Int32Scalar.int32 (-1)) ∧
      specOffsetSum 2 [0, 0] [65536, 1] [0, 1] [65535, 65535] = 4294967295) ∧
    detail.CalculateOffset ⟨[4], [0], [1], [5], 4⟩ [2] = none := by
  decide

/-- C1, amended: for a layout of `n ≥ 1` dimensions whose increment, offset and order
lists have length `n`, every order entry being an index in `0 .. n-1`, and a coordinate
vector of length `n`, `detail::CalculateOffset` returns the sum over `d < n` of
`increment[d] * (coordinates[order[d]] + offset[d])` reduced to the 32-bit
two's-complement range of the Int32 arithmetic it is computed in, which is the sum
itself whenever the sum lies in that range; with increments `[4,1]`, zero offsets and
coordinates `(1,2)` it returns 6 under order `[0,1]` and 9 under order `[1,0]`, and
with increment `[1]`, order `[0]`, zero offset and coordinates `(2)` it returns 2. -/
theorem CalculateOffset_wrapped_sum :
    (∀ (layout : MemoryLayout) (coordinates : List Int),
      0 < layout.NumDimensions →
      layout.increment.length = layout.NumDimensions →
      layout.offset.length = layout.NumDimensions →
      layout.order.length = layout.NumDimensions →
      coordinates.length = layout.NumDimensions →
      (∀ o ∈ layout.order, 0 ≤ o ∧ o < (layout.NumDimensions : Int)) →
      detail.CalculateOffset layout coordinates
          = some (.int32 (wrapInt32 (specOffsetSum layout.NumDimensions layout.offset
              layout.increment layout.order coordinates))) ∧
        (-2147483648 ≤ specOffsetSum layout.NumDimensions layout.offset
              layout.increment layout.order coordinates →
          specOffsetSum layout.NumDimensions layout.offset
              layout.increment layout.order coordinates < 2147483648 →
          detail.CalculateOffset layout coordinates
            = some (.int32 (specOffsetSum layout.NumDimensions layout.offset
                layout.increment layout.order coordinates)))) ∧
    detail.CalculateOffset ⟨[2, 3], [0, 0], [4, 1], [0, 1], 8⟩ [1, 2] = some (.int32 6) ∧
    detail.CalculateOffset ⟨[2, 3], [0, 0], [4, 1], [1, 0], 8⟩ [1, 2] = some (.int32 9) ∧
    detail.CalculateOffset ⟨[4], [0], [1], [0], 4⟩ [2] = some (.int32 2) := by
  refine ⟨?_, by decide, by decide, by decide⟩
  intro layout coordinates hpos hinc hoff hord hco hperm
  have hmain : detail.CalculateOffset layout coordinates
      = some (.int32 (wrapInt32 (specOffsetSum layout.NumDimensions layout.offset
          layout.increment layout.order coordinates))) := by
    unfold detail.CalculateOffset specOffsetSum
    simp only [MemoryLayout.GetOffset, MemoryLayout.GetCumulativeIncrement,
      MemoryLayout.GetLogicalDimensionOrder]
    rw [foldlM_CalculateOffsetStep]
    · simp only [wrapInt32_mul]
      rw [foldl_addAssign_undefined (fun d => layout.increment.getD d 0 *
        (coordinates.getD (layout.order.getD d 0).toNat 0 + layout.offset.getD d 0))]
      intro h
      have hl := congrArg List.length h
      simp at hl
      omega
    · intro d hd
      have hdn : d < layout.NumDimensions := List.mem_range.mp hd
      have hmem : layout.order.getD d 0 ∈ layout.order := by
        have hlt : d < layout.order.length := by omega
        rw [List.getD_eq_getElem _ _ hlt]
        exact List.getElem_mem hlt
      obtain ⟨hge, hlt⟩ := hperm _ hmem
      refine ⟨by omega, by omega, by omega, hge, ?_⟩
      omega
  refine ⟨hmain, fun h0 h1 => ?_⟩
  rw [hmain, wrapInt32_of_inRange _ h0 h1]

theorem CalculateOffset_wrapped_sum_witness :
    detail.CalculateOffset ⟨[2, 3, 4], [1, 0, 2], [12, 4, 1], [2, 0, 1], 24⟩ [1, 2, 3]
        = some (.int32 (wrapInt32
            (specOffsetSum 3 [1, 0, 2] [12, 4, 1] [2, 0, 1] [1, 2, 3]))) ∧
      detail.CalculateOffset ⟨[2, 3, 4], [1, 0, 2], [12, 4, 1], [2, 0, 1], 24⟩ [1, 2, 3]
        = some (.int32 (specOffsetSum 3 [1, 0, 2] [12, 4, 1] [2, 0, 1] [1, 2, 3])) :=
  ⟨(CalculateOffset_wrapped_sum.1 ⟨[2, 3, 4], [1, 0, 2], [12, 4, 1], [2, 0, 1], 24⟩
      [1, 2, 3] (by decide) (by decide) (by decide) (by decide) (by decide)
      (by decide)).1,
   (CalculateOffset_wrapped_sum.1 ⟨[2, 3, 4], [1, 0, 2], [12, 4, 1], [2, 0, 1], 24⟩
      [1, 2, 3] (by decide) (by decide) (by decide) (by decide) (by decide)
      (by decide)).2 (by decide) (by decide)⟩

/-! ## Named allocation -/

/-- C2: for `GlobalAllocate` (scope Global) and `StaticAllocate` (scope Function) alike,
when a value exists under the name in that scope the call succeeds exactly when the
requested layout's memory size is at most the existing layout's memory size; it then
returns the existing value with the requested layout and leaves the backend state
untouched (`GlobalAllocateImpl` does not run), and otherwise fails with invalidSize,
the state untouched too. When no value exists under the name the outcome is that of
`GlobalAllocateImpl` for that scope, name, type and layout. -/
theorem GlobalAllocate_StaticAllocate_named {σ : Type} (ctx : EmitterContext σ)
    (name : String) (type : ValueType) (layout : MemoryLayout) (s : σ) :
    (∀ existing, ctx.GetGlobalValue .Global name s = some existing →
      ((∃ v, (ctx.GlobalAllocate name type layout s).1 = .ok v) ↔
        layout.GetMemorySize ≤ existing.GetLayout.GetMemorySize) ∧
      (layout.GetMemorySize ≤ existing.GetLayout.GetMemorySize →
        ctx.GlobalAllocate name type layout s = (.ok (existing.SetLayout layout), s)) ∧
      (¬ layout.GetMemorySize ≤ existing.GetLayout.GetMemorySize →
        ctx.GlobalAllocate name type layout s
          = (.error (.InputException .invalidSize), s))) ∧
    (ctx.GetGlobalValue .Global name s = none →
      ctx.GlobalAllocate name type layout s
        = ctx.GlobalAllocateImpl .Global name type layout s) ∧
    (∀ existing, ctx.GetGlobalValue .Function name s = some existing →
      ((∃ v, (ctx.StaticAllocate name type layout s).1 = .ok v) ↔
        layout.GetMemorySize ≤ existing.GetLayout.GetMemorySize) ∧
      (layout.GetMemorySize ≤ existing.GetLayout.GetMemorySize →
        ctx.StaticAllocate name type layout s = (.ok (existing.SetLayout layout), s)) ∧
      (¬ layout.GetMemorySize ≤ existing.GetLayout.GetMemorySize →
        ctx.StaticAllocate name type layout s
          = (.error (.InputException .invalidSize), s))) ∧
    (ctx.GetGlobalValue .Function name s = none →
      ctx.StaticAllocate name type layout s
        = ctx.GlobalAllocateImpl .Function name type layout s) := by
  refine ⟨?_, ?_, ?_, ?_⟩
  · intro existing h
    by_cases hle : layout.GetMemorySize ≤ existing.GetLayout.GetMemorySize
    · have hgt : ¬ layout.GetMemorySize > existing.GetLayout.GetMemorySize := not_lt.mpr hle
      simp [EmitterContext.GlobalAllocate, h, hgt, hle]
    · have hgt : layout.GetMemorySize > existing.GetLayout.GetMemorySize := not_le.mp hle
      simp [EmitterContext.GlobalAllocate, h, hgt, hle]
  · intro h
    simp [EmitterContext.GlobalAllocate, h]
  · intro existing h
    by_cases hle : layout.GetMemorySize ≤ existing.GetLayout.GetMemorySize
    · have hgt : ¬ layout.GetMemorySize > existing.GetLayout.GetMemorySize := not_lt.mpr hle
      simp [EmitterContext.StaticAllocate, h, hgt, hle]
    · have hgt : layout.GetMemorySize > existing.GetLayout.GetMemorySize := not_le.mp hle
      simp [EmitterContext.StaticAllocate, h, hgt, hle]
  · intro h
    simp [EmitterContext.StaticAllocate, h]


theorem GlobalAllocate_StaticAllocate_named_witness :
    (traceContext.GlobalAllocate "buf" .Int32 (lineLayout 2) bufState
      = (.ok ((definedValue .Int32).SetLayout (lineLayout 2)), bufState)) ∧
    (traceContext.GlobalAllocate "buf" .Int32 (lineLayout 8) bufState
      = (.error (.InputException .invalidSize), bufState)) ∧
    (traceContext.GlobalAllocate "other" .Int32 (lineLayout 8) bufState
      = traceContext.GlobalAllocateImpl .Global "other" .Int32 (lineLayout 8) bufState) ∧
    (traceContext.StaticAllocate "buf" .Int32 (lineLayout 2) bufState
      = (.ok ((⟨.Int32, lineLayout 4, true, true, 1⟩ : Value).SetLayout (lineLayout 2)),
          bufState)) ∧
    (traceContext.StaticAllocate "buf" .Int32 (lineLayout 8) bufState
      = (.error (.InputException .invalidSize), bufState)) ∧
    (traceContext.StaticAllocate "other" .Int32 (lineLayout 8) bufState
      = traceContext.GlobalAllocateImpl .Function "other" .Int32 (lineLayout 8) bufState) :=
  ⟨((GlobalAllocate_StaticAllocate_named traceContext "buf" .Int32 (lineLayout 2)
        bufState).1 (definedValue .Int32) (by decide)).2.1 (by decide),
   ((GlobalAllocate_StaticAllocate_named traceContext "buf" .Int32 (lineLayout 8)
        bufState).1 (definedValue .Int32) (by decide)).2.2 (by decide),
   (GlobalAllocate_StaticAllocate_named traceContext "other" .Int32 (lineLayout 8)
        bufState).2.1 (by decide),
   ((GlobalAllocate_StaticAllocate_named traceContext "buf" .Int32 (lineLayout 2)
        bufState).2.2.1 ⟨.Int32, lineLayout 4, true, true, 1⟩ (by decide)).2.1 (by decide),
   ((GlobalAllocate_StaticAllocate_named traceContext "buf" .Int32 (lineLayout 8)
        bufState).2.2.1 ⟨.Int32, lineLayout 4, true, true, 1⟩ (by decide)).2.2 (by decide),
   (GlobalAllocate_StaticAllocate_named traceContext "other" .Int32 (lineLayout 8)
        bufState).2.2.2 (by decide)⟩


/-! ## The active context and its guard -/

/-- C3, as the code behaves at a concrete input: inside the block guarded for context
1, where `GetContext` first returns context 1, a nested guard for context 2 is created
and ends; the next `GetContext`, still inside the block of the guard for context 1,
raises illegalState. While the nested guard is alive, `GetContext` returns context 2,
not context 1. -/
theorem GetContext_raises_under_outer_guard :
    GetContext (ContextGuard.ctor (1 : Nat) Globals.initial) = .ok 1 ∧
    GetContext (ContextGuard.ctor (2 : Nat) (ContextGuard.ctor 1 Globals.initial))
      = .ok 2 ∧
    (ContextGuard.scope (1 : Nat)
        (fun g =>
          (GetContext
            (ContextGuard.scope 2 (fun g2 => ((.ok () : Except Exception Unit), g2)) g).2,
           (ContextGuard.scope 2 (fun g2 => ((.ok () : Except Exception Unit), g2)) g).2))
        Globals.initial).1
      = .error (.LogicException .illegalState) :=
  ⟨rfl, rfl, rfl⟩

/-- C3, amended: `GetContext` raises illegalState exactly when `s_context` is null, and
returns the context `s_context` points to otherwise. It raises in the initial state;
right after a `ContextGuard` is created it returns that guard's context, whatever was
active before (also the context of an enclosing guard); after a `ContextGuard` ends,
by return or by an error raised in its block, it raises illegalState, whatever was
active before the guard was created (also when an enclosing guard is still alive).
Every global helper (`Allocate` by size and by layout, `GlobalAllocate`, `If` and the
twenty intrinsic helpers) raises illegalState and leaves the emission state untouched
when no context is active, and when a context is active its outcome is exactly that of
the member of the active context it forwards to. -/
theorem GetContext_and_helpers_illegalState {C σ : Type} (type : ValueType)
    (layout : MemoryLayout) (size : Nat) (name : String) (test : Scalar)
    (fn : Emit σ Unit) (s s1 s2 : Scalar) (v : Vector) (st : σ) :
    (∀ g : Globals C,
      GetContext g = .error (.LogicException .illegalState) ↔ g.s_context = none) ∧
    (∀ (g : Globals C) (context : C),
      GetContext g = .ok context ↔ g.s_context = some context) ∧
    GetContext (Globals.initial : Globals C) = .error (.LogicException .illegalState) ∧
    (∀ (context : C) (g : Globals C),
      GetContext (ContextGuard.ctor context g) = .ok context) ∧
    (∀ g : Globals C,
      GetContext (ContextGuard.dtor g) = .error (.LogicException .illegalState)) ∧
    (∀ (α : Type) (context : C) (body : Globals C → Except Exception α × Globals C)
        (g : Globals C),
      (ContextGuard.scope context body g).1 = (body (ContextGuard.ctor context g)).1 ∧
      GetContext (ContextGuard.scope context body g).2
        = .error (.LogicException .illegalState)) ∧
    (∀ (α : Type) (outer inner : C)
        (body : Globals C → Except Exception α × Globals C) (g : Globals C),
      GetContext (ContextGuard.ctor inner (ContextGuard.ctor outer g)) = .ok inner ∧
      GetContext (ContextGuard.scope inner body (ContextGuard.ctor outer g)).2
        = .error (.LogicException .illegalState)) ∧
    (∀ g : Globals (EmitterContext σ), g.s_context = none →
      Allocate_size_t type size g st = (.error (.LogicException .illegalState), st) ∧
      Allocate type layout g st = (.error (.LogicException .illegalState), st) ∧
      GlobalAllocate name type layout g st = (.error (.LogicException .illegalState), st) ∧
      If test fn g st = (.error (.LogicException .illegalState), st) ∧
      Abs_Scalar s g st = (.error (.LogicException .illegalState), st) ∧
      Cos_Scalar s g st = (.error (.LogicException .illegalState), st) ∧
      Exp_Scalar s g st = (.error (.LogicException .illegalState), st) ∧
      Log_Scalar s g st = (.error (.LogicException .illegalState), st) ∧
      Max_Scalar_Scalar s1 s2 g st = (.error (.LogicException .illegalState), st) ∧
      Min_Scalar_Scalar s1 s2 g st = (.error (.LogicException .illegalState), st) ∧
      Pow_Scalar_Scalar s1 s2 g st = (.error (.LogicException .illegalState), st) ∧
      Sin_Scalar s g st = (.error (.LogicException .illegalState), st) ∧
      Sqrt_Scalar s g st = (.error (.LogicException .illegalState), st) ∧
      Tanh_Scalar s g st = (.error (.LogicException .illegalState), st) ∧
      Abs_Vector v g st = (.error (.LogicException .illegalState), st) ∧
      Cos_Vector v g st = (.error (.LogicException .illegalState), st) ∧
      Exp_Vector v g st = (.error (.LogicException .illegalState), st) ∧
      Log_Vector v g st = (.error (.LogicException .illegalState), st) ∧
      Max_Vector v g st = (.error (.LogicException .illegalState), st) ∧
      Min_Vector v g st = (.error (.LogicException .illegalState), st) ∧
      Pow_Vector_Scalar v s2 g st = (.error (.LogicException .illegalState), st) ∧
      Sin_Vector v g st = (.error (.LogicException .illegalState), st) ∧
      Sqrt_Vector v g st = (.error (.LogicException .illegalState), st) ∧
      Tanh_Vector v g st = (.error (.LogicException .illegalState), st)) ∧
    (∀ (g : Globals (EmitterContext σ)) (ctx : EmitterContext σ), g.s_context = some ctx →
      Allocate_size_t type size g st
        = ctx.Allocate_size_t type size st ∧
      Allocate type layout g st
        = ctx.Allocate type layout st ∧
      GlobalAllocate name type layout g st
        = ctx.GlobalAllocate name type layout st ∧
      If test fn g st
        = ctx.If test fn st ∧
      Abs_Scalar s g st
        = derefAs Scalar.mk
          (ctx.Call AbsFunctionDeclaration [s.GetValue] st) ∧
      Cos_Scalar s g st
        = derefAs Scalar.mk
          (ctx.Call CosFunctionDeclaration [s.GetValue] st) ∧
      Exp_Scalar s g st
        = derefAs Scalar.mk
          (ctx.Call ExpFunctionDeclaration [s.GetValue] st) ∧
      Log_Scalar s g st
        = derefAs Scalar.mk
          (ctx.Call LogFunctionDeclaration [s.GetValue] st) ∧
      Max_Scalar_Scalar s1 s2 g st
        = derefAs Scalar.mk
          (ctx.Call MaxNumFunctionDeclaration [s1.GetValue, s2.GetValue] st) ∧
      Min_Scalar_Scalar s1 s2 g st
        = derefAs Scalar.mk
          (ctx.Call MinNumFunctionDeclaration [s1.GetValue, s2.GetValue] st) ∧
      Pow_Scalar_Scalar s1 s2 g st
        = derefAs Scalar.mk
          (ctx.Call PowFunctionDeclaration [s1.GetValue, s2.GetValue] st) ∧
      Sin_Scalar s g st
        = derefAs Scalar.mk
          (ctx.Call SinFunctionDeclaration [s.GetValue] st) ∧
      Sqrt_Scalar s g st
        = derefAs Scalar.mk
          (ctx.Call SqrtFunctionDeclaration [s.GetValue] st) ∧
      Tanh_Scalar s g st
        = derefAs Scalar.mk
          (ctx.Call TanhFunctionDeclaration [s.GetValue] st) ∧
      Abs_Vector v g st
        = derefAs Vector.mk
          (ctx.Call AbsFunctionDeclaration [v.GetValue] st) ∧
      Cos_Vector v g st
        = derefAs Vector.mk
          (ctx.Call CosFunctionDeclaration [v.GetValue] st) ∧
      Exp_Vector v g st
        = derefAs Vector.mk
          (ctx.Call ExpFunctionDeclaration [v.GetValue] st) ∧
      Log_Vector v g st
        = derefAs Vector.mk
          (ctx.Call LogFunctionDeclaration [v.GetValue] st) ∧
      Max_Vector v g st
        = derefAs Scalar.mk
          (ctx.Call MaxNumFunctionDeclaration [v.GetValue] st) ∧
      Min_Vector v g st
        = derefAs Scalar.mk
          (ctx.Call MinNumFunctionDeclaration [v.GetValue] st) ∧
      Pow_Vector_Scalar v s2 g st
        = derefAs Vector.mk
          (ctx.Call PowFunctionDeclaration [v.GetValue, s2.GetValue] st) ∧
      Sin_Vector v g st
        = derefAs Vector.mk
          (ctx.Call SinFunctionDeclaration [v.GetValue] st) ∧
      Sqrt_Vector v g st
        = derefAs Vector.mk
          (ctx.Call SqrtFunctionDeclaration [v.GetValue] st) ∧
      Tanh_Vector v g st
        = derefAs Vector.mk
          (ctx.Call TanhFunctionDeclaration [v.GetValue] st)) := by
  have hscope : ∀ (α : Type) (context : C)
      (body : Globals C → Except Exception α × Globals C) (g : Globals C),
      GetContext (ContextGuard.scope context body g).2
        = .error (.LogicException .illegalState) := by
    intro α context body g
    unfold ContextGuard.scope
    rcases hb : body (ContextGuard.ctor context g) with ⟨r, g1⟩
    cases r <;> simp [hb, ContextGuard.dtor, ClearContext, GetContext]
  refine ⟨?_, ?_, rfl, fun _ _ => rfl, fun _ => rfl, ?_, ?_, ?_, ?_⟩
  · intro g
    cases h : g.s_context <;> simp [GetContext, h]
  · intro g context
    cases h : g.s_context <;> simp [GetContext, h]
  · intro α context body g
    refine ⟨?_, hscope α context body g⟩
    unfold ContextGuard.scope
    rcases hb : body (ContextGuard.ctor context g) with ⟨r, g1⟩
    cases r <;> simp [hb]
  · intro α outer inner body g
    exact ⟨rfl, hscope α inner body _⟩
  · intro g h
    cases g with
    | mk c =>
      simp only at h
      subst h
      exact ⟨rfl, rfl, rfl, rfl, rfl, rfl, rfl, rfl, rfl, rfl, rfl, rfl,
        rfl, rfl, rfl, rfl, rfl, rfl, rfl, rfl, rfl, rfl, rfl, rfl⟩
  · intro g ctx h
    cases g with
    | mk c =>
      simp only at h
      subst h
      exact ⟨rfl, rfl, rfl, rfl, rfl, rfl, rfl, rfl, rfl, rfl, rfl, rfl,
        rfl, rfl, rfl, rfl, rfl, rfl, rfl, rfl, rfl, rfl, rfl, rfl⟩

theorem GetContext_and_helpers_illegalState_witness :
    (Allocate_size_t ValueType.Int32 4 Globals.initial TraceState.empty
        = (.error (.LogicException .illegalState), TraceState.empty) ∧
      If (Scalar.mk (definedValue .Boolean)) traceBody Globals.initial TraceState.empty
        = (.error (.LogicException .illegalState), TraceState.empty) ∧
      Abs_Scalar (Scalar.mk (definedValue .Double)) Globals.initial TraceState.empty
        = (.error (.LogicException .illegalState), TraceState.empty)) ∧
    (Allocate_size_t ValueType.Int32 4 ⟨some traceContext⟩ TraceState.empty
        = traceContext.Allocate_size_t ValueType.Int32 4 TraceState.empty ∧
      If (Scalar.mk (definedValue .Boolean)) traceBody ⟨some traceContext⟩ TraceState.empty
        = traceContext.If (Scalar.mk (definedValue .Boolean)) traceBody TraceState.empty ∧
      Abs_Scalar (Scalar.mk (definedValue .Double)) ⟨some traceContext⟩ TraceState.empty
        = derefAs Scalar.mk
          (traceContext.Call AbsFunctionDeclaration
            [(Scalar.mk (definedValue .Double)).GetValue] TraceState.empty)) :=
  ⟨⟨((GetContext_and_helpers_illegalState (C := Nat) .Int32 (lineLayout 4) 4 "buf"
      (Scalar.mk (definedValue .Boolean)) traceBody (Scalar.mk (definedValue .Double))
      (Scalar.mk (definedValue .Double)) (Scalar.mk (definedValue .Int32))
      (Vector.mk (definedValue .Double)) TraceState.empty).2.2.2.2.2.2.2.1
        Globals.initial rfl).1,
    ((GetContext_and_helpers_illegalState (C := Nat) .Int32 (lineLayout 4) 4 "buf"
      (Scalar.mk (definedValue .Boolean)) traceBody (Scalar.mk (definedValue .Double))
      (Scalar.mk (definedValue .Double)) (Scalar.mk (definedValue .Int32))
      (Vector.mk (definedValue .Double)) TraceState.empty).2.2.2.2.2.2.2.1
        Globals.initial rfl).2.2.2.1,
    ((GetContext_and_helpers_illegalState (C := Nat) .Int32 (lineLayout 4) 4 "buf"
      (Scalar.mk (definedValue .Boolean)) traceBody (Scalar.mk (definedValue .Double))
      (Scalar.mk (definedValue .Double)) (Scalar.mk (definedValue .Int32))
      (Vector.mk (definedValue .Double)) TraceState.empty).2.2.2.2.2.2.2.1
        Globals.initial rfl).2.2.2.2.1⟩,
   ⟨((GetContext_and_helpers_illegalState (C := Nat) .Int32 (lineLayout 4) 4 "buf"
      (Scalar.mk (definedValue .Boolean)) traceBody (Scalar.mk (definedValue .Double))
      (Scalar.mk (definedValue .Double)) (Scalar.mk (definedValue .Int32))
      (Vector.mk (definedValue .Double)) TraceState.empty).2.2.2.2.2.2.2.2
        ⟨some traceContext⟩ traceContext rfl).1,
    ((GetContext_and_helpers_illegalState (C := Nat) .Int32 (lineLayout 4) 4 "buf"
      (Scalar.mk (definedValue .Boolean)) traceBody (Scalar.mk (definedValue .Double))
      (Scalar.mk (definedValue .Double)) (Scalar.mk (definedValue .Int32))
      (Vector.mk (definedValue .Double)) TraceState.empty).2.2.2.2.2.2.2.2
        ⟨some traceContext⟩ traceContext rfl).2.2.2.1,
    ((GetContext_and_helpers_illegalState (C := Nat) .Int32 (lineLayout 4) 4 "buf"
      (Scalar.mk (definedValue .Boolean)) traceBody (Scalar.mk (definedValue .Double))
      (Scalar.mk (definedValue .Double)) (Scalar.mk (definedValue .Int32))
      (Vector.mk (definedValue .Double)) TraceState.empty).2.2.2.2.2.2.2.2
        ⟨some traceContext⟩ traceContext rfl).2.2.2.2.1⟩⟩

/-- C4, as the code behaves at a concrete input: with a guard for context 1 alive, a
guard for context 2 is created and ends; no context is active afterwards, and
`GetContext` raises instead of returning context 1. -/
theorem ContextGuard_nested_clears :
    (ContextGuard.scope (2 : Nat) (fun g => ((.ok () : Except Exception Unit), g))
        (ContextGuard.ctor 1 Globals.initial)).2.s_context = none ∧
    (ContextGuard.scope (2 : Nat) (fun g => ((.ok () : Except Exception Unit), g))
        (ContextGuard.ctor 1 Globals.initial)).2.s_context
      ≠ (ContextGuard.ctor (1 : Nat) Globals.initial).s_context ∧
    GetContext (ContextGuard.scope (2 : Nat)
        (fun g => ((.ok () : Except Exception Unit), g))
        (ContextGuard.ctor 1 Globals.initial)).2
      = .error (.LogicException .illegalState) :=
  ⟨rfl, by decide, rfl⟩

/-- C4, amended: scoped acquisition is set/clear. When a `ContextGuard` ends no context
is active, whatever was active before the guard was created; the activation state after
the guard ends equals the one that held just before the guard was created exactly when
no context was active then. -/
theorem ContextGuard_scope_clears {C α : Type} (context : C)
    (body : Globals C → Except Exception α × Globals C) (g : Globals C) :
    (ContextGuard.scope context body g).2.s_context = none ∧
    ((ContextGuard.scope context body g).2 = g ↔ g.s_context = none) := by
  have h : (ContextGuard.scope context body g).2 = ⟨none⟩ := by
    unfold ContextGuard.scope
    rcases hb : body (ContextGuard.ctor context g) with ⟨r, g1⟩
    cases r <;> simp [hb, ContextGuard.dtor, ClearContext]
  refine ⟨by rw [h], ?_⟩
  rw [h]
  cases g with
  | mk c => cases c <;> simp


/-! ## Checks of the dispatcher before it forwards -/

/-- C5: for a test scalar whose type is not Boolean, `EmitterContext::If` and
`IfContext::ElseIf` raise typeMismatch and leave the emission state untouched, for every
backend and every body (neither the body nor `IfImpl` / the impl's `ElseIf` runs); for
a test scalar of type Boolean the outcome is that of one call of `IfImpl`, respectively
of one call of the impl's `ElseIf` (the `IfContext` itself being returned when that call
returns). -/
theorem If_ElseIf_typeMismatch {σ : Type} (ctx : EmitterContext σ) (self : IfContext σ)
    (test : Scalar) (fn : Emit σ Unit) (s : σ) :
    (test.GetType ≠ ValueType.Boolean →
      ctx.If test fn s = (.error (.InputException .typeMismatch), s) ∧
      self.ElseIf test fn s = (.error (.InputException .typeMismatch), s)) ∧
    (test.GetType = ValueType.Boolean →
      ctx.If test fn s = ctx.IfImpl test fn s ∧
      (self.ElseIf test fn s).2 = (self._impl.ElseIf test fn s).2 ∧
      (self.ElseIf test fn s).1 = (self._impl.ElseIf test fn s).1.map fun _ => self) := by
  constructor
  · intro h
    simp [EmitterContext.If, IfContext.ElseIf, h]
  · intro h
    simp only [EmitterContext.If, IfContext.ElseIf, h, ne_eq, not_true_eq_false, ite_false,
      true_and]
    rcases hb : self._impl.ElseIf test fn s with ⟨r, s1⟩
    cases r <;> simp [Except.map]

theorem If_ElseIf_typeMismatch_witness :
    (traceContext.If ⟨definedValue .Int32⟩ traceBody TraceState.empty
        = (.error (.InputException .typeMismatch), TraceState.empty) ∧
      (IfContext.mk traceIfContextImpl).ElseIf ⟨definedValue .Int32⟩ traceBody
          TraceState.empty
        = (.error (.InputException .typeMismatch), TraceState.empty)) ∧
    (traceContext.If ⟨definedValue .Boolean⟩ traceBody TraceState.empty
        = traceContext.IfImpl ⟨definedValue .Boolean⟩ traceBody TraceState.empty ∧
      ((IfContext.mk traceIfContextImpl).ElseIf ⟨definedValue .Boolean⟩ traceBody
          TraceState.empty).2
        = (traceIfContextImpl.ElseIf ⟨definedValue .Boolean⟩ traceBody TraceState.empty).2 ∧
      ((IfContext.mk traceIfContextImpl).ElseIf ⟨definedValue .Boolean⟩ traceBody
          TraceState.empty).1
        = (traceIfContextImpl.ElseIf ⟨definedValue .Boolean⟩ traceBody
            TraceState.empty).1.map fun _ => IfContext.mk traceIfContextImpl) :=
  ⟨(If_ElseIf_typeMismatch traceContext ⟨traceIfContextImpl⟩ ⟨definedValue .Int32⟩
      traceBody TraceState.empty).1 (by decide),
   (If_ElseIf_typeMismatch traceContext ⟨traceIfContextImpl⟩ ⟨definedValue .Boolean⟩
      traceBody TraceState.empty).2 (by decide)⟩

/-- C6: `EmitterContext::LogicalOperation(op, a, b)` raises invalidArgument of its own,
whatever the backend and with the emission state untouched, if and only if `a` is
undefined, or `b` is undefined, or `a` and `b` have different base types; in each of
these cases `LogicalOperationImpl` does not run, and in every other case the outcome is
exactly that of `LogicalOperationImpl(op, a, b)`. -/
theorem LogicalOperation_invalidArgument_iff {σ : Type} (op : ValueLogicalOperation)
    (a b : Value) (s : σ) :
    ((∀ ctx : EmitterContext σ,
        ctx.LogicalOperation op a b s = (.error (.InputException .invalidArgument), s)) ↔
      (a.IsDefined = false ∨ b.IsDefined = false ∨ a.GetBaseType ≠ b.GetBaseType)) ∧
    (∀ ctx : EmitterContext σ,
      (a.IsDefined = false ∨ b.IsDefined = false ∨ a.GetBaseType ≠ b.GetBaseType) →
      ctx.LogicalOperation op a b s = (.error (.InputException .invalidArgument), s)) ∧
    (∀ ctx : EmitterContext σ,
      ¬ (a.IsDefined = false ∨ b.IsDefined = false ∨ a.GetBaseType ≠ b.GetBaseType) →
      ctx.LogicalOperation op a b s = ctx.LogicalOperationImpl op a b s) := by
  have hfail : ∀ ctx : EmitterContext σ,
      (a.IsDefined = false ∨ b.IsDefined = false ∨ a.GetBaseType ≠ b.GetBaseType) →
      ctx.LogicalOperation op a b s = (.error (.InputException .invalidArgument), s) := by
    intro ctx h
    unfold EmitterContext.LogicalOperation
    rcases h with h | h | h
    · simp [h]
    · simp [h]
    · simp [h]
  have hpass : ∀ ctx : EmitterContext σ,
      ¬ (a.IsDefined = false ∨ b.IsDefined = false ∨ a.GetBaseType ≠ b.GetBaseType) →
      ctx.LogicalOperation op a b s = ctx.LogicalOperationImpl op a b s := by
    intro ctx h
    unfold EmitterContext.LogicalOperation
    push_neg at h
    obtain ⟨ha, hb, hab⟩ := h
    simp at ha hb
    simp [ha, hb, hab]
  refine ⟨⟨?_, fun h ctx => hfail ctx h⟩, hfail, hpass⟩
  intro hall
  by_contra hcond
  have h1 := hall (idleContext σ)
  rw [hpass (idleContext σ) hcond] at h1
  simp [idleContext] at h1


theorem LogicalOperation_invalidArgument_iff_witness :
    (traceContext.LogicalOperation ⟨0⟩ (definedValue .Int32) (definedValue .Double)
        TraceState.empty
      = (.error (.InputException .invalidArgument), TraceState.empty)) ∧
    (traceContext.LogicalOperation ⟨0⟩ undefinedValue (definedValue .Void)
        TraceState.empty
      = (.error (.InputException .invalidArgument), TraceState.empty)) ∧
    (traceContext.LogicalOperation ⟨0⟩ (definedValue .Int32) (definedValue .Int32)
        TraceState.empty
      = traceContext.LogicalOperationImpl ⟨0⟩ (definedValue .Int32) (definedValue .Int32)
          TraceState.empty) :=
  ⟨(LogicalOperation_invalidArgument_iff ⟨0⟩ (definedValue .Int32) (definedValue .Double)
      TraceState.empty).2.1 traceContext (by decide),
   (LogicalOperation_invalidArgument_iff ⟨0⟩ undefinedValue (definedValue .Void)
      TraceState.empty).2.1 traceContext (by decide),
   (LogicalOperation_invalidArgument_iff ⟨0⟩ (definedValue .Int32) (definedValue .Int32)
      TraceState.empty).2.2 traceContext (by decide)⟩

/-- C7: `EmitterContext::Cast(value, type)` raises invalidArgument of its own, whatever
the backend and with the emission state untouched, if and only if `value` is not
shape-constrained, for every destination type; when `value` is constrained the outcome
is exactly that of `CastImpl(value, type)`, and when it is not `CastImpl` does not
run. -/
theorem Cast_invalidArgument_iff {σ : Type} (value : Value) (type : ValueType) (s : σ) :
    ((∀ ctx : EmitterContext σ,
        ctx.Cast value type s = (.error (.InputException .invalidArgument), s)) ↔
      value.IsConstrained = false) ∧
    (∀ ctx : EmitterContext σ, value.IsConstrained = false →
      ctx.Cast value type s = (.error (.InputException .invalidArgument), s)) ∧
    (∀ ctx : EmitterContext σ, value.IsConstrained = true →
      ctx.Cast value type s = ctx.CastImpl value type s) := by
  have hfail : ∀ ctx : EmitterContext σ, value.IsConstrained = false →
      ctx.Cast value type s = (.error (.InputException .invalidArgument), s) := by
    intro ctx h
    simp [EmitterContext.Cast, h]
  have hpass : ∀ ctx : EmitterContext σ, value.IsConstrained = true →
      ctx.Cast value type s = ctx.CastImpl value type s := by
    intro ctx h
    simp [EmitterContext.Cast, h]
  refine ⟨⟨?_, fun h ctx => hfail ctx h⟩, hfail, hpass⟩
  intro hall
  by_contra hcond
  have hc : value.IsConstrained = true := by simpa using hcond
  have h1 := hall (idleContext σ)
  rw [hpass (idleContext σ) hc] at h1
  simp [idleContext] at h1

theorem Cast_invalidArgument_iff_witness :
    (traceContext.Cast undefinedValue .Double TraceState.empty
      = (.error (.InputException .invalidArgument), TraceState.empty)) ∧
    (traceContext.Cast (definedValue .Int32) .Double TraceState.empty
      = traceContext.CastImpl (definedValue .Int32) .Double TraceState.empty) :=
  ⟨(Cast_invalidArgument_iff undefinedValue .Double TraceState.empty).2.1 traceContext
      (by decide),
   (Cast_invalidArgument_iff (definedValue .Int32) .Double TraceState.empty).2.2
      traceContext (by decide)⟩

/-- C8, as the code behaves at a concrete input: on the recording backend
`UnaryOperation` and `BinaryOperation` with an undefined operand do not raise
invalidArgument; the backend implementation runs and its result is returned. -/
theorem UnaryOperation_BinaryOperation_undefined_forwarded :
    traceContext.UnaryOperation ⟨0⟩ undefinedValue TraceState.empty
      = (.ok undefinedValue, ⟨[.UnaryOperationImpl], []⟩) ∧
    traceContext.BinaryOperation ⟨0⟩ undefinedValue undefinedValue TraceState.empty
      = (.ok undefinedValue, ⟨[.BinaryOperationImpl], []⟩) ∧
    undefinedValue.IsDefined = false ∧
    traceContext.UnaryOperation ⟨0⟩ undefinedValue TraceState.empty
      ≠ (.error (.InputException .invalidArgument), TraceState.empty) ∧
    traceContext.BinaryOperation ⟨0⟩ undefinedValue undefinedValue TraceState.empty
      ≠ (.error (.InputException .invalidArgument), TraceState.empty) := by
  refine ⟨rfl, rfl, rfl, ?_, ?_⟩
  · simp [EmitterContext.UnaryOperation, traceContext]
  · simp [EmitterContext.BinaryOperation, traceContext]

/-- C8, amended: `EmitterContext::UnaryOperation` and `EmitterContext::BinaryOperation`
make no check of their own; for every operand, defined or not, the outcome is exactly
that of the backend implementation `UnaryOperationImpl`, respectively
`BinaryOperationImpl`, on the same arguments. -/
theorem UnaryOperation_BinaryOperation_forward {σ : Type} (ctx : EmitterContext σ)
    (uop : ValueUnaryOperation) (bop : ValueBinaryOperation)
    (value destination source : Value) (s : σ) :
    ctx.UnaryOperation uop value s = ctx.UnaryOperationImpl uop value s ∧
    ctx.BinaryOperation bop destination source s
      = ctx.BinaryOperationImpl bop destination source s :=
  ⟨rfl, rfl⟩

/-! ## Loops -/

/-- C9: for every layout with `NumElements() == 0`, in particular every layout with a
zero-size dimension, `EmitterContext::For(layout, body)` returns at once and leaves the
emission state untouched, for every backend and body (neither the body nor `ForImpl`
runs); for every layout with `NumElements() != 0` its outcome is that of one call
`ForImpl(layout, body)`. -/
theorem For_zero_elements {σ : Type} (ctx : EmitterContext σ) (layout : MemoryLayout)
    (fn : List Scalar → Emit σ Unit) (s : σ) :
    (layout.NumElements = 0 → ctx.For layout fn s = (.ok (), s)) ∧
    ((0 : Int) ∈ layout.size → layout.NumElements = 0) ∧
    (layout.NumElements ≠ 0 → ctx.For layout fn s = ctx.ForImpl layout fn s) := by
  refine ⟨?_, ?_, ?_⟩
  · intro h
    simp [EmitterContext.For, h]
  · intro h
    exact List.prod_eq_zero h
  · intro h
    simp [EmitterContext.For, h]

theorem For_zero_elements_witness :
    (traceContext.For ⟨[2, 0], [0, 0], [1, 1], [0, 1], 0⟩ (fun _ => traceBody)
        TraceState.empty = (.ok (), TraceState.empty)) ∧
    (MemoryLayout.NumElements ⟨[2, 0], [0, 0], [1, 1], [0, 1], 0⟩ = 0) ∧
    (traceContext.For ⟨[2, 3], [0, 0], [3, 1], [0, 1], 6⟩ (fun _ => traceBody)
        TraceState.empty
      = traceContext.ForImpl ⟨[2, 3], [0, 0], [3, 1], [0, 1], 6⟩ (fun _ => traceBody)
          TraceState.empty) :=
  ⟨(For_zero_elements traceContext ⟨[2, 0], [0, 0], [1, 1], [0, 1], 0⟩ (fun _ => traceBody)
      TraceState.empty).1 (by decide),
   (For_zero_elements traceContext ⟨[2, 0], [0, 0], [1, 1], [0, 1], 0⟩ (fun _ => traceBody)
      TraceState.empty).2.1 (by decide),
   (For_zero_elements traceContext ⟨[2, 3], [0, 0], [3, 1], [0, 1], 6⟩ (fun _ => traceBody)
      TraceState.empty).2.2 (by decide)⟩

end value
end ell

namespace emll
namespace compiler

open ell.value (ValueType)

/-! ## Type resolution -/

/-- C10, as the code behaves at a concrete input: for the base kind Boolean and for its
pointer variant `IREmitter::Type` raises InvalidValueType, and so does
`IREmitter::GetValueType` for Boolean. -/
theorem Type_Boolean_raises :
    IREmitter.Type ValueType.Boolean = .error EmitterError.InvalidValueType ∧
    IREmitter.Type ValueType.PBoolean = .error EmitterError.InvalidValueType ∧
    IREmitter.GetValueType ValueType.Boolean = .error EmitterError.InvalidValueType ∧
    ¬ ∃ t, IREmitter.Type ValueType.Boolean = .ok t := by
  refine ⟨rfl, rfl, rfl, ?_⟩
  rintro ⟨t, h⟩
  cases h

/-- C10, amended: `IREmitter::Type` returns a backend type, and does not raise, for
the base kinds Void, Byte, Short, Int32, Int64, Double and Char8 and for the pointer
variant of each of these; for every other value (Boolean, the pointer variant of
Boolean, a value outside the enumeration) it raises InvalidValueType. -/
theorem Type_total_on_mapped_kinds (v : ValueType) :
    ((∃ t, IREmitter.Type v = .ok t) ↔
      v ∈ [ValueType.Void, .PVoid, .Byte, .PByte, .Short, .PShort, .Int32, .PInt32,
        .Int64, .PInt64, .Double, .PDouble, .Char8, .PChar8]) ∧
    (IREmitter.Type v = .error EmitterError.InvalidValueType ↔
      (v = ValueType.Boolean ∨ v = ValueType.PBoolean ∨ ∃ raw, v = ValueType.invalid raw)) := by
  cases v <;> simp [IREmitter.Type, IREmitter.GetValueType, Except.map]

end compiler
end emll

namespace emll
namespace compiler

open ell.value (ValueType)

/-- C11, as the code behaves at a concrete input: Boolean is a base kind with the
pointer variant PBoolean, and `IREmitter::Type` returns no backend type for either of
them, so `Type(PBoolean)` is not the pointer-to type of a type `Type(Boolean)`
returns. -/
theorem Type_pointerOf_Boolean_raises :
    ValueType.pointerOf ValueType.Boolean = some ValueType.PBoolean ∧
    IREmitter.Type ValueType.PBoolean = .error EmitterError.InvalidValueType ∧
    ¬ ∃ t, IREmitter.Type ValueType.Boolean = .ok t ∧
      IREmitter.Type ValueType.PBoolean = .ok t.getPointerTo := by
  refine ⟨rfl, rfl, ?_⟩
  rintro ⟨t, h, -⟩
  cases h

/-- C11, amended: for every base kind `v` other than Boolean, with pointer variant `p`,
`IREmitter::Type(v)` returns a backend type and `IREmitter::Type(p)` returns the
pointer-to type of it; for Boolean both calls raise InvalidValueType. In either case
the outcome for `p` is the outcome for `v` with pointer-to applied to a returned
type. -/
theorem Type_pointerOf_eq_getPointerTo (v p : ValueType)
    (hp : ValueType.pointerOf v = some p) :
    (v ≠ ValueType.Boolean →
      ∃ t, IREmitter.Type v = .ok t ∧ IREmitter.Type p = .ok t.getPointerTo) ∧
    (v = ValueType.Boolean →
      IREmitter.Type v = .error EmitterError.InvalidValueType ∧
      IREmitter.Type p = .error EmitterError.InvalidValueType) ∧
    IREmitter.Type p = (IREmitter.Type v).map LLVMType.getPointerTo := by
  cases v <;> simp [ValueType.pointerOf] at hp <;> subst hp <;>
    simp [IREmitter.Type, IREmitter.GetValueType, Except.map]

theorem Type_pointerOf_eq_getPointerTo_witness :
    (∃ t, IREmitter.Type ValueType.Int32 = .ok t ∧
      IREmitter.Type ValueType.PInt32 = .ok t.getPointerTo) ∧
    (IREmitter.Type ValueType.Boolean = .error EmitterError.InvalidValueType ∧
      IREmitter.Type ValueType.PBoolean = .error EmitterError.InvalidValueType) :=
  ⟨(Type_pointerOf_eq_getPointerTo .Int32 .PInt32 rfl).1 (by decide),
   (Type_pointerOf_eq_getPointerTo .Boolean .PBoolean rfl).2.1 rfl⟩

/-! ## Arithmetic and comparisons -/

/-- C12: `IREmitter::BinaryOp` maps each operator tag to exactly one builder call on
the two given operands (Add to `CreateAdd`, Subtract to `CreateSub`, Multiply to
`CreateMul`, DivideS to `CreateSDiv`, AddF to `CreateFAdd`, SubtractF to `CreateFSub`,
MultiplyF to `CreateFMul`, DivideF to `CreateFDiv`) and returns the value that call
created; for every other tag it raises InvalidOperatorType and the builder is asked
nothing. -/
theorem BinaryOp_maps_each_tag (pLVal pRVal : LLVMValue) (varName : String)
    (self : IREmitter) :
    IREmitter.BinaryOp .Add pLVal pRVal varName self
      = (.ok self.calls.length,
          ⟨self.calls ++ [.CreateAdd pLVal pRVal varName], self._stringLiterals⟩) ∧
    IREmitter.BinaryOp .Subtract pLVal pRVal varName self
      = (.ok self.calls.length,
          ⟨self.calls ++ [.CreateSub pLVal pRVal varName], self._stringLiterals⟩) ∧
    IREmitter.BinaryOp .Multiply pLVal pRVal varName self
      = (.ok self.calls.length,
          ⟨self.calls ++ [.CreateMul pLVal pRVal varName], self._stringLiterals⟩) ∧
    IREmitter.BinaryOp .DivideS pLVal pRVal varName self
      = (.ok self.calls.length,
          ⟨self.calls ++ [.CreateSDiv pLVal pRVal varName], self._stringLiterals⟩) ∧
    IREmitter.BinaryOp .AddF pLVal pRVal varName self
      = (.ok self.calls.length,
          ⟨self.calls ++ [.CreateFAdd pLVal pRVal varName], self._stringLiterals⟩) ∧
    IREmitter.BinaryOp .SubtractF pLVal pRVal varName self
      = (.ok self.calls.length,
          ⟨self.calls ++ [.CreateFSub pLVal pRVal varName], self._stringLiterals⟩) ∧
    IREmitter.BinaryOp .MultiplyF pLVal pRVal varName self
      = (.ok self.calls.length,
          ⟨self.calls ++ [.CreateFMul pLVal pRVal varName], self._stringLiterals⟩) ∧
    IREmitter.BinaryOp .DivideF pLVal pRVal varName self
      = (.ok self.calls.length,
          ⟨self.calls ++ [.CreateFDiv pLVal pRVal varName], self._stringLiterals⟩) ∧
    (∀ type : OperatorType,
      type ∉ [OperatorType.Add, .Subtract, .Multiply, .DivideS, .AddF, .SubtractF,
        .MultiplyF, .DivideF] ↔
      IREmitter.BinaryOp type pLVal pRVal varName self
        = (.error EmitterError.InvalidOperatorType, self)) := by
  refine ⟨rfl, rfl, rfl, rfl, rfl, rfl, rfl, rfl, ?_⟩
  intro type
  cases type <;> simp [IREmitter.BinaryOp, IREmitter.create]

/-- C13: `IREmitter::Cmp` maps each comparison tag to exactly one integer comparison of
the builder on the two given operands (Eq to `CreateICmpEQ`, Neq to `CreateICmpNE`, Lt
to `CreateICmpSLT`, Lte to `CreateICmpSLE`, Gt to `CreateICmpSGT`, Gte to
`CreateICmpSGE`) and returns the value that call created; for every other tag it raises
InvalidComparisonType and the builder is asked nothing. -/
theorem Cmp_maps_each_tag (pLVal pRVal : LLVMValue) (self : IREmitter) :
    IREmitter.Cmp .Eq pLVal pRVal self
      = (.ok self.calls.length,
          ⟨self.calls ++ [.CreateICmpEQ pLVal pRVal], self._stringLiterals⟩) ∧
    IREmitter.Cmp .Neq pLVal pRVal self
      = (.ok self.calls.length,
          ⟨self.calls ++ [.CreateICmpNE pLVal pRVal], self._stringLiterals⟩) ∧
    IREmitter.Cmp .Lt pLVal pRVal self
      = (.ok self.calls.length,
          ⟨self.calls ++ [.CreateICmpSLT pLVal pRVal], self._stringLiterals⟩) ∧
    IREmitter.Cmp .Lte pLVal pRVal self
      = (.ok self.calls.length,
          ⟨self.calls ++ [.CreateICmpSLE pLVal pRVal], self._stringLiterals⟩) ∧
    IREmitter.Cmp .Gt pLVal pRVal self
      = (.ok self.calls.length,
          ⟨self.calls ++ [.CreateICmpSGT pLVal pRVal], self._stringLiterals⟩) ∧
    IREmitter.Cmp .Gte pLVal pRVal self
      = (.ok self.calls.length,
          ⟨self.calls ++ [.CreateICmpSGE pLVal pRVal], self._stringLiterals⟩) ∧
    (∀ type : ComparisonType,
      type ∉ [ComparisonType.Eq, .Neq, .Lt, .Lte, .Gt, .Gte] ↔
      IREmitter.Cmp type pLVal pRVal self
        = (.error EmitterError.InvalidComparisonType, self)) := by
  refine ⟨rfl, rfl, rfl, rfl, rfl, rfl, ?_⟩
  intro type
  cases type <;> simp [IREmitter.Cmp, IREmitter.create]

end compiler
end emll

namespace emll
namespace compiler

open IREmitter

/-! ## String literals -/

end compiler
end emll

namespace ell
namespace value

/-! ## Intrinsics -/

/-- C15: `EmitterContext::GetIntrinsics` returns one fixed table, whatever the context
and however often it is called: exactly ten declarations, pairwise distinct, in the
order Abs, Cos, Exp, Log, MaxNum, MinNum, Pow, Sin, Sqrt, Tanh; and each intrinsic free
function, scalar and vector overloads, returns what `Call` of the active context gives
for the declaration of that table that bears its name (Max with MaxNum, Min with
MinNum) and the values of its arguments in order. -/
theorem GetIntrinsics_fixed_table {σ : Type} (ctx : EmitterContext σ) (st : σ)
    (s s1 s2 : Scalar) (v : Vector) :
    (∀ other : EmitterContext σ, other.GetIntrinsics = ctx.GetIntrinsics) ∧
    ctx.GetIntrinsics.length = 10 ∧
    ctx.GetIntrinsics.Nodup ∧
    ctx.GetIntrinsics.map FunctionDeclaration.name
      = ["Abs", "Cos", "Exp", "Log", "MaxNum", "MinNum", "Pow", "Sin", "Sqrt", "Tanh"] ∧
    ctx.GetIntrinsics
      = [AbsFunctionDeclaration, CosFunctionDeclaration, ExpFunctionDeclaration,
         LogFunctionDeclaration, MaxNumFunctionDeclaration, MinNumFunctionDeclaration,
         PowFunctionDeclaration, SinFunctionDeclaration, SqrtFunctionDeclaration,
         TanhFunctionDeclaration] ∧
    Abs_Scalar s ⟨some ctx⟩ st
      = derefAs Scalar.mk (ctx.Call AbsFunctionDeclaration [s.GetValue] st) ∧
    Cos_Scalar s ⟨some ctx⟩ st
      = derefAs Scalar.mk (ctx.Call CosFunctionDeclaration [s.GetValue] st) ∧
    Exp_Scalar s ⟨some ctx⟩ st
      = derefAs Scalar.mk (ctx.Call ExpFunctionDeclaration [s.GetValue] st) ∧
    Log_Scalar s ⟨some ctx⟩ st
      = derefAs Scalar.mk (ctx.Call LogFunctionDeclaration [s.GetValue] st) ∧
    Max_Scalar_Scalar s1 s2 ⟨some ctx⟩ st
      = derefAs Scalar.mk (ctx.Call MaxNumFunctionDeclaration [s1.GetValue, s2.GetValue] st) ∧
    Min_Scalar_Scalar s1 s2 ⟨some ctx⟩ st
      = derefAs Scalar.mk (ctx.Call MinNumFunctionDeclaration [s1.GetValue, s2.GetValue] st) ∧
    Pow_Scalar_Scalar s1 s2 ⟨some ctx⟩ st
      = derefAs Scalar.mk (ctx.Call PowFunctionDeclaration [s1.GetValue, s2.GetValue] st) ∧
    Sin_Scalar s ⟨some ctx⟩ st
      = derefAs Scalar.mk (ctx.Call SinFunctionDeclaration [s.GetValue] st) ∧
    Sqrt_Scalar s ⟨some ctx⟩ st
      = derefAs Scalar.mk (ctx.Call SqrtFunctionDeclaration [s.GetValue] st) ∧
    Tanh_Scalar s ⟨some ctx⟩ st
      = derefAs Scalar.mk (ctx.Call TanhFunctionDeclaration [s.GetValue] st) ∧
    Abs_Vector v ⟨some ctx⟩ st
      = derefAs Vector.mk (ctx.Call AbsFunctionDeclaration [v.GetValue] st) ∧
    Cos_Vector v ⟨some ctx⟩ st
      = derefAs Vector.mk (ctx.Call CosFunctionDeclaration [v.GetValue] st) ∧
    Exp_Vector v ⟨some ctx⟩ st
      = derefAs Vector.mk (ctx.Call ExpFunctionDeclaration [v.GetValue] st) ∧
    Log_Vector v ⟨some ctx⟩ st
      = derefAs Vector.mk (ctx.Call LogFunctionDeclaration [v.GetValue] st) ∧
    Max_Vector v ⟨some ctx⟩ st
      = derefAs Scalar.mk (ctx.Call MaxNumFunctionDeclaration [v.GetValue] st) ∧
    Min_Vector v ⟨some ctx⟩ st
      = derefAs Scalar.mk (ctx.Call MinNumFunctionDeclaration [v.GetValue] st) ∧
    Pow_Vector_Scalar v s2 ⟨some ctx⟩ st
      = derefAs Vector.mk (ctx.Call PowFunctionDeclaration [v.GetValue, s2.GetValue] st) ∧
    Sin_Vector v ⟨some ctx⟩ st
      = derefAs Vector.mk (ctx.Call SinFunctionDeclaration [v.GetValue] st) ∧
    Sqrt_Vector v ⟨some ctx⟩ st
      = derefAs Vector.mk (ctx.Call SqrtFunctionDeclaration [v.GetValue] st) ∧
    Tanh_Vector v ⟨some ctx⟩ st
      = derefAs Vector.mk (ctx.Call TanhFunctionDeclaration [v.GetValue] st) := by
  refine ⟨fun _ => rfl, rfl, by unfold EmitterContext.GetIntrinsics; decide, rfl, rfl,
    rfl, rfl, rfl, rfl, rfl, rfl, rfl, rfl, rfl, rfl, rfl, rfl, rfl, rfl, rfl, rfl, rfl, rfl, rfl, rfl⟩

end value
end ell

namespace ell
namespace value

/-! ## Bounds of the accesses made while addressing -/

theorem CalculateOffsetStep_of_coordinate_out_of_range
    (offset increment order coordinates : List Int) (result : Int32Scalar) (index : Nat)
    (ord : Int)
    (hord : order[index]? = some ord) (hc : vectorAt coordinates ord = none) :
    detail.CalculateOffsetStep offset increment order coordinates result index = none := by
  unfold detail.CalculateOffsetStep
  rw [hord]
  cases increment[index]? <;> cases offset[index]? <;> simp [hc]

theorem foldlM_eq_none_of_step_none {α β : Type} (step : β → α → Option β) (ds : List α)
    (acc : β) (h : ∃ d ∈ ds, ∀ b, step b d = none) :
    ds.foldlM step acc = none := by
  induction ds generalizing acc with
  | nil =>
    obtain ⟨d, hd, -⟩ := h
    cases hd
  | cons d0 rest ih =>
    rw [List.foldlM_cons]
    cases hstep : step acc d0 with
    | none => rfl
    | some b =>
      obtain ⟨d, hd, hnone⟩ := h
      rcases List.mem_cons.mp hd with he | hm
      · have h1 := hnone acc
        rw [he, hstep] at h1
        cases h1
      · exact ih b ⟨d, hm, hnone⟩

theorem mem_order_of_perm (order : List Int) (n : Nat)
    (hperm : order.Perm ((List.range n).map Int.ofNat)) :
    order.length = n ∧ (∀ o ∈ order, 0 ≤ o ∧ o < (n : Int)) ∧
    (∀ m : Nat, m < n → (m : Int) ∈ order) := by
  refine ⟨by simpa using hperm.length_eq, ?_, ?_⟩
  · intro o ho
    have hm := hperm.mem_iff.mp ho
    simp only [List.mem_map, List.mem_range] at hm
    obtain ⟨k, hk, rfl⟩ := hm
    exact ⟨Int.ofNat_nonneg k, Int.ofNat_lt.mpr hk⟩
  · intro m hm
    exact hperm.mem_iff.mpr (List.mem_map.mpr ⟨m, List.mem_range.mpr hm, rfl⟩)

/-- C16: for a layout whose offset and increment lists have length
`n = NumDimensions()` and whose order list is a permutation of `0 .. n-1`: when the
coordinate vector has length `n`, each access of `detail::CalculateOffset` at each
`index < n` (`increment[index]`, `offset[index]`, `order[index]`,
`coordinates[order[index]]`) is in range and the loop runs to its end with a result;
when the coordinate vector is shorter than `n`, there is an `index < n` at which
`coordinates[order[index]]` is out of range, and `CalculateOffset` reaches an
out-of-range access: nothing rejects the input before. -/
theorem CalculateOffset_accesses_in_range (layout : MemoryLayout) (coordinates : List Int)
    (hinc : layout.increment.length = layout.NumDimensions)
    (hoff : layout.offset.length = layout.NumDimensions)
    (hperm : layout.order.Perm ((List.range layout.NumDimensions).map Int.ofNat)) :
    (coordinates.length = layout.NumDimensions →
      (∀ index, index < layout.NumDimensions →
        (∃ inc, layout.GetCumulativeIncrement[index]? = some inc) ∧
        (∃ off, layout.GetOffset[index]? = some off) ∧
        (∃ ord, layout.GetLogicalDimensionOrder[index]? = some ord ∧
          ∃ coordinate, vectorAt coordinates ord = some coordinate)) ∧
      ∃ result, detail.CalculateOffset layout coordinates = some result) ∧
    (coordinates.length < layout.NumDimensions →
      (∃ index, index < layout.NumDimensions ∧
        ∃ ord, layout.GetLogicalDimensionOrder[index]? = some ord ∧
          vectorAt coordinates ord = none) ∧
      detail.CalculateOffset layout coordinates = none) := by
  obtain ⟨hlen, hrange, hall⟩ := mem_order_of_perm layout.order layout.NumDimensions hperm
  simp only [MemoryLayout.GetOffset, MemoryLayout.GetCumulativeIncrement,
    MemoryLayout.GetLogicalDimensionOrder]
  constructor
  · intro hco
    have hidx : ∀ index, index < layout.NumDimensions →
        0 ≤ layout.order.getD index 0 ∧
          (layout.order.getD index 0).toNat < coordinates.length := by
      intro index hi
      have hlt : index < layout.order.length := by omega
      have hmem : layout.order.getD index 0 ∈ layout.order := by
        rw [List.getD_eq_getElem _ _ hlt]
        exact List.getElem_mem hlt
      obtain ⟨hge, hlt2⟩ := hrange _ hmem
      exact ⟨hge, by omega⟩
    constructor
    · intro index hi
      refine ⟨⟨_, List.getElem?_eq_getElem (by omega)⟩,
        ⟨_, List.getElem?_eq_getElem (by omega)⟩, ?_⟩
      have hlt : index < layout.order.length := by omega
      refine ⟨layout.order.getD index 0, ?_, _, vectorAt_of_lt coordinates _ 0
        (hidx index hi).1 (hidx index hi).2⟩
      rw [List.getD_eq_getElem _ _ hlt]
      exact List.getElem?_eq_getElem hlt
    · have hfold := foldlM_CalculateOffsetStep layout.offset layout.increment layout.order
        coordinates (List.range layout.NumDimensions) Int32Scalar.undefined (by
          intro d hd
          have hdn : d < layout.NumDimensions := List.mem_range.mp hd
          exact ⟨by omega, by omega, by omega, hidx d hdn⟩)
      exact ⟨_, hfold⟩
  · intro hshort
    have hmem : ((coordinates.length : Nat) : Int) ∈ layout.order := hall _ hshort
    obtain ⟨index, hi, hget⟩ := List.getElem_of_mem hmem
    have hord : layout.order[index]? = some (coordinates.length : Int) := by
      rw [List.getElem?_eq_getElem hi, hget]
    have hnone : vectorAt coordinates (coordinates.length : Int) = none := by
      unfold vectorAt
      simp
    refine ⟨⟨index, by omega, _, hord, hnone⟩, ?_⟩
    unfold detail.CalculateOffset
    simp only [MemoryLayout.GetOffset, MemoryLayout.GetCumulativeIncrement,
      MemoryLayout.GetLogicalDimensionOrder]
    apply foldlM_eq_none_of_step_none
    exact ⟨index, List.mem_range.mpr (by omega), fun b =>
      CalculateOffsetStep_of_coordinate_out_of_range _ _ _ _ b index _ hord hnone⟩

theorem CalculateOffset_accesses_in_range_witness :
    (∃ result,
      detail.CalculateOffset ⟨[2, 3], [0, 0], [4, 1], [1, 0], 8⟩ [1, 2] = some result) ∧
    ((∃ index, index < 2 ∧ ∃ ord, ([1, 0] : List Int)[index]? = some ord ∧
        vectorAt ([1] : List Int) ord = none) ∧
      detail.CalculateOffset ⟨[2, 3], [0, 0], [4, 1], [1, 0], 8⟩ [1] = none) :=
  ⟨((CalculateOffset_accesses_in_range ⟨[2, 3], [0, 0], [4, 1], [1, 0], 8⟩ [1, 2]
      (by decide) (by decide) (by decide)).1 (by decide)).2,
   (CalculateOffset_accesses_in_range ⟨[2, 3], [0, 0], [4, 1], [1, 0], 8⟩ [1]
      (by decide) (by decide) (by decide)).2 (by decide)⟩

end value
end ell
